import Mathlib

/-!
Verification of the AquaDao pallets (staked-token, dao, adao-manager).

Shallow embedding of the Rust sources. Monetary values (`Balance`, u128) are
modelled as `Nat` with explicit bound checks where the source uses checked
arithmetic; signed amounts (`Amount`, i128) as `Int`. Fixed-point numbers
(`FixedU128` / `FixedI128`, accuracy `ACC = 10^18`) are represented by their
inner value; every sp-arithmetic operation used by the sources truncates
toward zero, which we validated against the repository's own unit tests
(e.g. `mint_for_subscription_works`: `1000 * 0.1 / 8 = 12`, and
`subscribe_works`: quote `105_260_000_000_000`).

Fallible operations are embedded as `Except Err State`; the `#[transactional]`
attribute on every extrinsic of the sources is modelled by the convention
that an error result leaves the pre-state untouched (`applyExtrinsic`).
-/

namespace AquaDao

/-! ## sp-arithmetic primitives -/

def ACC : Nat := 10 ^ 18

def U128MAX : Nat := 2 ^ 128 - 1

def I128MAXN : Nat := 2 ^ 127 - 1

def I128MAX : Int := 2 ^ 127 - 1

def I128MIN : Int := -(2 ^ 127)

abbrev Balance := Nat

abbrev AccountId := Nat

abbrev BlockNumber := Nat

/-- `FixedU128::checked_mul_int`: `⌊inner·n / ACC⌋`, `none` when the result
does not fit in a u128. -/
def checkedMulInt (inner n : Nat) : Option Nat :=
  let r := inner * n / ACC
  if r ≤ U128MAX then some r else none

/-- `FixedU128::saturating_mul_int` for a u128 operand. -/
def satMulInt (inner n : Nat) : Nat :=
  min (inner * n / ACC) U128MAX

/-- `FixedU128::saturating_mul_int` for a nonnegative i128 operand
(saturating at `i128::MAX`). -/
def satMulIntI (inner : Nat) (n : Int) : Int :=
  ((min (inner * n.toNat / ACC) I128MAXN : Nat) : Int)

/-- `FixedU128::reciprocal = one / self`: `⌊ACC² / inner⌋`; `none` iff the
inner value is zero (the quotient is at most `ACC² ≤ u128::MAX`, so the
overflow branch of `checked_div` is unreachable). -/
def reciprocal (inner : Nat) : Option Nat :=
  if inner = 0 then none else some (ACC * ACC / inner)

/-- `FixedU128::checked_from_rational p q`: `⌊p·ACC / q⌋`, `none` on division
by zero or u128 overflow. -/
def checkedFromRational (p q : Nat) : Option Nat :=
  if q = 0 then none
  else
    let r := p * ACC / q
    if r ≤ U128MAX then some r else none

/-- `FixedU128::saturating_from_rational` (all call sites have `q ≠ 0`). -/
def saturatingFromRational (p q : Nat) : Nat :=
  min (p * ACC / q) U128MAX

/-- `FixedU128::checked_mul` (fixed × fixed): `⌊a·b / ACC⌋` with u128 check. -/
def checkedMulFixedU (a b : Nat) : Option Nat :=
  let r := a * b / ACC
  if r ≤ U128MAX then some r else none

/-- u128 `checked_add`. -/
def checkedAddU (a b : Nat) : Option Nat :=
  if a + b ≤ U128MAX then some (a + b) else none

/-- u128 `saturating_add`. -/
def satAddU (a b : Nat) : Nat := min (a + b) U128MAX

/-- `Option::ok_or`: lift a checked operation into the error monad. -/
def liftO {α : Type} (o : Option α) (e : Err) : Except Err α :=
  match o with
  | some v => .ok v
  | none => .error e

/-- i128 range check for `FixedI128` checked operations. -/
def inI128 (x : Int) : Prop := I128MIN ≤ x ∧ x ≤ I128MAX

instance (x : Int) : Decidable (inI128 x) := by
  unfold inI128; infer_instance

/-- `FixedI128::checked_add`. -/
def checkedAddI (a b : Int) : Option Int :=
  if inI128 (a + b) then some (a + b) else none

/-- `FixedI128::checked_sub`. -/
def checkedSubI (a b : Int) : Option Int :=
  if inI128 (a - b) then some (a - b) else none

/-- `FixedI128::checked_mul` (fixed × fixed): `(a·b)` divided by `ACC`
truncating toward zero, with i128 range check. -/
def checkedMulFixedI (a b : Int) : Option Int :=
  let r := (a * b).tdiv (ACC : Int)
  if inI128 r then some r else none

/-- `u128 → i128` `unique_saturated_into`. -/
def i128ofU (n : Nat) : Int := ((min n I128MAXN : Nat) : Int)

/-- Bit-by-bit floor-square-root worker: decides the bits of the root from
`2^(f-1)` down to `2^0`, keeping `acc² ≤ n < (acc + 2^f)²`. -/
def sqrtAux (n : Nat) : Nat → Nat → Nat
  | 0, acc => acc
  | f + 1, acc =>
    if (acc + 2 ^ f) * (acc + 2 ^ f) ≤ n then sqrtAux n f (acc + 2 ^ f)
    else sqrtAux n f acc

/-- `integer_sqrt` on u128 (floor square root; 65 bits cover every value
below `2^130`, in particular every u128). See `integerSqrt_spec`. -/
def integerSqrt (n : Nat) : Nat := sqrtAux n 65 0

/-! ## Currencies -/

inductive TokenSymbol
  | ACA
  | AUSD
  | DOT
  | ADAO
  | SDAO
  deriving DecidableEq, Repr

/-- Discriminant order of `acala_primitives::TokenSymbol` (only the relative
order of the symbols we use matters: `ACA < AUSD < DOT < ADAO < SDAO`). -/
def TokenSymbol.discr : TokenSymbol → Nat
  | .ACA => 0
  | .AUSD => 1
  | .DOT => 2
  | .ADAO => 20
  | .SDAO => 21

inductive CurrencyId
  | token (s : TokenSymbol)
  | dexShare (a b : TokenSymbol)
  deriving DecidableEq, Repr

/-- Key order used by the `BTreeMap`s of the sources (injective on the
constructors we use; tokens sort before dex shares as in SCALE encoding). -/
def CurrencyId.idx : CurrencyId → Nat
  | .token s => s.discr
  | .dexShare a b => 100 + 30 * a.discr + b.discr

/-- `CurrencyId::decimals` from acala primitives (ADAO and AUSD have 12,
matching the repository's tests; DOT has 10). -/
def TokenSymbol.decimals : TokenSymbol → Nat
  | .ACA => 12
  | .AUSD => 12
  | .DOT => 10
  | .ADAO => 12
  | .SDAO => 12

def CurrencyId.decimals : CurrencyId → Option Nat
  | .token s => some s.decimals
  | .dexShare a _ => some a.decimals

def ADAO : CurrencyId := .token .ADAO

def SDAO : CurrencyId := .token .SDAO

def AUSD : CurrencyId := .token .AUSD

/-- `TradingPair::from_currency_ids(a, b).dex_share_currency_id()` for two
distinct plain tokens: the pair is sorted by currency order. -/
def dexShareCurrencyId (a b : TokenSymbol) : CurrencyId :=
  if a.discr ≤ b.discr then .dexShare a b else .dexShare b a

/-! ## Association-list maps (mirroring `BTreeMap`: keys kept sorted) -/

def mapGet {α : Type} (k : CurrencyId) : List (CurrencyId × α) → Option α
  | [] => none
  | (k', v) :: rest => if k' = k then some v else mapGet k rest

def mapInsert {α : Type} (k : CurrencyId) (v : α) :
    List (CurrencyId × α) → List (CurrencyId × α)
  | [] => [(k, v)]
  | (k', v') :: rest =>
    if k.idx < k'.idx then (k, v) :: (k', v') :: rest
    else if k' = k then (k, v) :: rest
    else (k', v') :: mapInsert k v rest

def mapRemove {α : Type} (k : CurrencyId) (m : List (CurrencyId × α)) :
    List (CurrencyId × α) :=
  m.filter (fun p => p.1 ≠ k)

/-! ## Errors and events -/

inductive Err
  | overflow
  | underflow
  | divisionByZero
  | balanceTooLow
  | subscriptionNotFound
  | noPrice
  | subscriptionIsFull
  | belowMinTargetAmount
  | belowMinSubscriptionAmount
  | noDecimalsInfo
  | vestingNotFound
  | maxVestingChunkExceeded
  | belowMinVestingAmount
  | zeroTargetAllocation
  | targetAllocationNotFound
  | invalidTradingPair
  deriving DecidableEq, Repr

inductive Event
  | staked (who : AccountId) (amount received : Balance)
  | unstaked (who : AccountId) (amount received : Balance)
  | claimed (who : AccountId) (amount : Balance)
  | unstakeFeeRateUpdated (rate : Nat)
  | vestingAdded (who : AccountId) (amount : Balance)
  | subscriptionCreated (id : Nat)
  | subscriptionUpdated (id : Nat)
  | subscriptionClosed (id : Nat)
  | subscribed (who : AccountId) (id : Nat) (payment amount : Balance)
  | targetAllocationSet (c : CurrencyId)
  | targetAllocationRemoved (c : CurrencyId)
  | targetAllocationAdjusted (c : CurrencyId)
  | strategiesSet
  deriving DecidableEq, Repr

/-! ## Data records of the three pallets -/

/-- `dao::Discount` (all rates are `FixedI128` inner values). -/
structure Discount where
  max : Int
  interval : BlockNumber
  inc_on_idle : Int
  dec_per_unit : Int
  deriving DecidableEq, Repr

/-- `dao::SubscriptionState`. -/
structure SubscriptionState where
  total_sold : Balance
  last_sold_at : BlockNumber
  last_discount : Int
  deriving DecidableEq, Repr

/-- `dao::Subscription` (`min_ratio` is a `Ratio` inner value). -/
structure Subscription where
  currency_id : CurrencyId
  vesting_period : BlockNumber
  min_amount : Balance
  min_ratio : Nat
  amount : Balance
  discount : Discount
  state : SubscriptionState
  deriving DecidableEq, Repr

/-- `adao-manager::Allocation`. -/
structure Allocation where
  value : Balance
  range : Balance
  deriving DecidableEq, Repr

/-- `adao-manager::AllocationAdjustment` (i128 fields). -/
structure AllocationAdjustment where
  value : Int
  range : Int
  deriving DecidableEq, Repr

/-- `adao-manager::AllocationPercent` (`FixedU128` inner values). -/
structure AllocationPercent where
  value : Nat
  min : Nat
  max : Nat
  deriving DecidableEq, Repr

/-- `adao-manager::AllocationDiff` (`current`/`target` are `FixedU128` inner
values, `diff`/`range_diff` are `FixedI128` inner values, `diff_amount` an
i128 `Amount`). -/
structure AllocationDiff where
  current : Nat
  target : Nat
  diff : Int
  range_diff : Int
  diff_amount : Int
  deriving DecidableEq, Repr

/-- `adao-manager::CurrentAllocation`. -/
structure CurrentAllocation where
  amount : Balance
  value : Balance
  percent : Nat
  deriving DecidableEq, Repr

inductive StrategyKind
  | liquidityProvisionAusdAdao
  | liquidityProvisionAusdOther (t : TokenSymbol)
  deriving DecidableEq, Repr

/-- `adao-manager::Strategy` (`percent_per_trade` is a `FixedU128` inner
value, the per-trade bounds are i128). -/
structure Strategy where
  kind : StrategyKind
  percent_per_trade : Nat
  max_amount_per_trade : Int
  min_amount_per_trade : Int
  deriving DecidableEq, Repr

/-- One vesting chunk of the bonding ledger: `(unlock_at, amount)`. -/
structure Chunk where
  unlockAt : BlockNumber
  amount : Balance
  deriving DecidableEq, Repr

/-! ## Configuration and state -/

/-- The pallet configuration constants (fixed-point constants are inner
values of `Ratio`/`Rate`). -/
structure Config where
  treasuryShare : Nat
  daoShare : Nat
  defaultExchangeRate : Nat
  palletAccount : AccountId
  daoAccount : AccountId
  feeDestAccount : AccountId
  rewardDestAccount : AccountId
  maxVestingChunks : Nat
  rebalancePeriod : Nat
  rebalanceOffset : Nat
  daoPalletAccount : AccountId
  managerPalletAccount : AccountId

/-- Combined persistent state of the ledger and the three pallets. `prices`
is the (injected, read-only) oracle: `relative_price(c, stable)`. -/
structure State where
  issuance : CurrencyId → Balance
  balance : CurrencyId → AccountId → Balance
  locked : CurrencyId → AccountId → Balance
  unstakeFeeRate : Nat
  ledger : AccountId → Option (List Chunk)
  subscriptionIndex : Nat
  subscriptions : Nat → Option Subscription
  targetAllocations : List (CurrencyId × Allocation)
  targetAllocationPercents : List (CurrencyId × AllocationPercent)
  strategies : List Strategy
  prices : CurrencyId → Option Nat
  events : List Event

/-- `MultiCurrency::deposit`: mints into an account (fails on u128 issuance
overflow, as orml-tokens does). -/
def State.deposit (σ : State) (c : CurrencyId) (acct : AccountId) (amt : Balance) :
    Except Err State :=
  if σ.issuance c + amt ≤ U128MAX then
    .ok { σ with
      issuance := fun c' => if c' = c then σ.issuance c' + amt else σ.issuance c'
      balance := fun c' a' =>
        if c' = c ∧ a' = acct then σ.balance c' a' + amt else σ.balance c' a' }
  else .error .overflow

/-- `MultiCurrency::withdraw`: burns from an account (fails when the
spendable — free minus locked — balance is insufficient). -/
def State.withdraw (σ : State) (c : CurrencyId) (acct : AccountId) (amt : Balance) :
    Except Err State :=
  if σ.balance c acct < σ.locked c acct + amt then .error .balanceTooLow
  else
    .ok { σ with
      issuance := fun c' => if c' = c then σ.issuance c' - amt else σ.issuance c'
      balance := fun c' a' =>
        if c' = c ∧ a' = acct then σ.balance c' a' - amt else σ.balance c' a' }

/-- `MultiCurrency::transfer`. -/
def State.transfer (σ : State) (c : CurrencyId) (src dst : AccountId) (amt : Balance) :
    Except Err State :=
  if σ.balance c src < σ.locked c src + amt then .error .balanceTooLow
  else if src = dst then .ok σ
  else
    .ok { σ with
      balance := fun c' a' =>
        if c' = c ∧ a' = src then σ.balance c' a' - amt
        else if c' = c ∧ a' = dst then σ.balance c' a' + amt
        else σ.balance c' a' }

def State.emit (σ : State) (e : Event) : State :=
  { σ with events := σ.events ++ [e] }

/-- `#[transactional]`: an extrinsic either commits its new state or reverts
every change it made. -/
def applyExtrinsic (f : State → Except Err State) (σ : State) : State :=
  match f σ with
  | .ok σ' => σ'
  | .error _ => σ

/-! ## Staked-token engine (`staked-token/src/lib.rs`) -/

/-- `Pallet::exchange_rate` (lines 307–315): `total_G_at_pallet / S_issuance`
as a floored fixed-point rational, the configured default when the `SDAO`
issuance is zero or the rational overflows. -/
def exchange_rate (cfg : Config) (σ : State) : Nat :=
  let total := σ.balance ADAO cfg.palletAccount
  let supply := σ.issuance SDAO
  if supply = 0 then cfg.defaultExchangeRate
  else
    match checkedFromRational total supply with
    | some r => r
    | none => cfg.defaultExchangeRate

/-- The reciprocal used by `to_staked` (lines 318–321): the exchange rate's
reciprocal, falling back to the default rate's reciprocal when the exchange
rate is zero. -/
def stakedRecip (cfg : Config) (σ : State) : Nat :=
  match reciprocal (exchange_rate cfg σ) with
  | some r => r
  | none => ACC * ACC / cfg.defaultExchangeRate

/-- `Pallet::to_staked` (lines 318–324). -/
def to_staked (cfg : Config) (σ : State) (amount : Balance) : Except Err Balance :=
  liftO (checkedMulInt (stakedRecip cfg σ) amount) .overflow

/-- `Pallet::from_staked` (lines 327–331). -/
def from_staked (cfg : Config) (σ : State) (amount : Balance) : Except Err Balance :=
  liftO (checkedMulInt (exchange_rate cfg σ) amount) .overflow

/-- Total amount covered by a bonding ledger. -/
def chunksTotal (chunks : List Chunk) : Balance :=
  (chunks.map Chunk.amount).sum

/-- Insert an unbonding chunk: merge with an existing chunk of the same
`unlock_at`, otherwise append, bounded by `MaxVestingChunks`. -/
def pushChunk (maxChunks : Nat) (chunks : List Chunk) (unlockAt : BlockNumber)
    (amt : Balance) : Except Err (List Chunk) :=
  match chunks.find? (fun ch => ch.unlockAt = unlockAt) with
  | some _ =>
    .ok (chunks.map fun ch =>
      if ch.unlockAt = unlockAt then { ch with amount := ch.amount + amt } else ch)
  | none =>
    if chunks.length < maxChunks then .ok (chunks ++ [⟨unlockAt, amt⟩])
    else .error .maxVestingChunkExceeded

/-- Reapply the named lock on `SDAO` to the ledger total
(`BondingController::apply_ledger`, lines 409–415): removed when empty. -/
def applyLedger (σ : State) (who : AccountId) (chunks : List Chunk) : State :=
  if chunks.isEmpty then
    { σ with
      ledger := fun a => if a = who then none else σ.ledger a
      locked := fun c a => if c = SDAO ∧ a = who then 0 else σ.locked c a }
  else
    { σ with
      ledger := fun a => if a = who then some chunks else σ.ledger a
      locked := fun c a => if c = SDAO ∧ a = who then chunksTotal chunks else σ.locked c a }

/-- Net effect of `bond` followed by `unbond` in `mint_for_subscription`
(acala bonding primitives): one new vesting chunk for the freshly deposited
`SDAO`, whose availability the preceding deposit guarantees. -/
def bondVesting (cfg : Config) (σ : State) (who : AccountId) (amt : Balance)
    (unlockAt : BlockNumber) : Except Err State := do
  let chunks := (σ.ledger who).getD []
  let chunks' ← pushChunk cfg.maxVestingChunks chunks unlockAt amt
  .ok (applyLedger σ who chunks')

/-- `StakedTokenManager::mint_for_subscription` (lines 342–388). -/
def mint_for_subscription (cfg : Config) (σ : State) (who : AccountId)
    (amount : Balance) (vestingPeriod : BlockNumber) (now : BlockNumber) :
    Except Err State := do
  -- fixed_share = treasury_share + dao_share
  let fixedShare ← liftO (checkedAddU cfg.treasuryShare cfg.daoShare) .overflow
  -- mint = amount / (1 - fixed_share)
  let oneSub ← if fixedShare ≤ ACC then Except.ok (ACC - fixedShare)
    else Except.error Err.underflow
  let recip ← liftO (reciprocal oneSub) .divisionByZero
  let mint ← liftO (checkedMulInt recip amount) .overflow
  let treasuryMint ← liftO (checkedMulInt cfg.treasuryShare mint) .overflow
  let daoMint ← liftO (checkedMulInt cfg.daoShare mint) .overflow
  let treasuryStaked ← to_staked cfg σ treasuryMint
  let daoStaked ← to_staked cfg σ daoMint
  let staked ← to_staked cfg σ amount
  let σ ← σ.deposit ADAO cfg.palletAccount mint
  -- mint & stake the treasury and DAO share
  let σ ← σ.deposit SDAO who staked
  let σ ← σ.deposit SDAO cfg.daoAccount daoStaked
  let σ ← σ.deposit SDAO cfg.rewardDestAccount treasuryStaked
  -- OnDepositReward hook: the treasury-staking pallet's handler is a stub
  -- with no state effect.
  -- SDAO token vesting
  let σ ← bondVesting cfg σ who staked (now + vestingPeriod)
  .ok (σ.emit (.vestingAdded who staked))

/-- `Pallet::stake` (lines 196–209). -/
def stake (cfg : Config) (σ : State) (who : AccountId) (amount : Balance) :
    Except Err State := do
  if amount = 0 then .ok σ
  else do
    let received ← to_staked cfg σ amount
    let σ ← σ.transfer ADAO who cfg.palletAccount amount
    let σ ← σ.deposit SDAO who received
    .ok (σ.emit (.staked who amount received))

/-- `Pallet::unstake` (lines 214–236). -/
def unstake (cfg : Config) (σ : State) (who : AccountId) (amount : Balance) :
    Except Err State := do
  if amount = 0 then .ok σ
  else do
    let redeem ← from_staked cfg σ amount
    let fee ← liftO (checkedMulInt σ.unstakeFeeRate redeem) .overflow
    let received ← if fee ≤ redeem then Except.ok (redeem - fee)
      else Except.error Err.underflow
    -- destroy SDAO
    let σ ← σ.withdraw SDAO who amount
    -- payback ADAO
    let σ ← σ.transfer ADAO cfg.palletAccount who received
    -- fee goes to treasury
    let σ ← σ.transfer ADAO cfg.palletAccount cfg.feeDestAccount fee
    .ok (σ.emit (.unstaked who amount received))

/-! ## Subscription engine (`dao/src/lib.rs`) -/

/-- `Pallet::currency_accuracy` (lines 466–469). -/
def currency_accuracy (c : CurrencyId) : Except Err Nat :=
  match c.decimals with
  | none => .error .noDecimalsInfo
  | some d => .ok (10 ^ d)

/-- `fixed_u128_sqrt` (lines 482–488): floor square root of the inner value,
reassembled with `√ACC = 10^9`. -/
def fixed_u128_sqrt (n : Nat) : Except Err Nat :=
  let newInner := integerSqrt n * integerSqrt ACC
  if newInner ≤ U128MAX then .ok newInner else .error .overflow

set_option linter.unusedVariables false in
/-- `Pallet::subscription_amount` (lines 349–460). Returns the quoted
`(amount, price_discount)`. Both price providers are modelled by the
oracle map `σ.prices` (relative price against the stable currency; the
config parameter mirrors the pallet's ambient runtime configuration). -/
def subscription_amount (cfg : Config) (σ : State) (sub : Subscription)
    (payment : Balance) (now : BlockNumber) : Except Err (Balance × Int) := do
  let adaoPrice ← liftO (σ.prices ADAO) .noPrice
  let paymentPrice ← liftO (σ.prices sub.currency_id) .noPrice
  -- idle_intervals = (now - last_sold_at) / interval, lifted to FixedI128
  -- via u64 (`unique_saturated_into`); `checked_from_integer` on a u64 value
  -- cannot overflow i128.
  let idleFixed ←
    (if sub.discount.interval = 0 then Except.error Err.underflow
    else Except.ok
      (((min ((now - sub.state.last_sold_at) / sub.discount.interval)
          (2 ^ 64 - 1) : Nat) : Int) * (ACC : Int)) : Except Err Int)
  -- discount_inc = inc_on_idle * idle_intervals
  let discountInc ← liftO (checkedMulFixedI sub.discount.inc_on_idle idleFixed) .overflow
  -- discount_dec = dec_per_unit * (total_sold / one-unit accuracy)
  let adaoAcc ← currency_accuracy ADAO
  let totalSoldUnits : Int := i128ofU (sub.state.total_sold / adaoAcc)
  let unitsFixed ←
    if inI128 (totalSoldUnits * ACC) then Except.ok (totalSoldUnits * (ACC : Int))
    else Except.error Err.overflow
  let discountDec ← liftO (checkedMulFixedI sub.discount.dec_per_unit unitsFixed) .overflow
  -- price_discount = min(max_discount, last_discount + discount_inc - discount_dec)
  let d1 ← liftO (checkedAddI sub.state.last_discount discountInc) .overflow
  let d2 ← liftO (checkedSubI d1 discountDec) .underflow
  let priceDiscount := min d2 sub.discount.max
  -- start_price = price * (1 - price_discount)
  let ratio ← liftO (checkedSubI ACC priceDiscount) .underflow
  let startPrice ← liftO (checkedMulFixedU adaoPrice ratio.natAbs) .overflow
  let paymentFixed ←
    if payment * ACC ≤ U128MAX then Except.ok (payment * ACC)
    else Except.error Err.overflow
  let paymentValue ← liftO (checkedMulFixedU paymentFixed paymentPrice) .overflow
  let inc ← liftO (checkedMulFixedU adaoPrice sub.discount.dec_per_unit.natAbs) .overflow
  -- receive_amount = (sqrt(2 * inc * payment_value + start_price ** 2) - start_price) / inc
  let payAcc ← currency_accuracy sub.currency_id
  let twoInc ← liftO (checkedMulFixedU (2 * ACC) inc) .overflow
  let t ← liftO (checkedMulFixedU twoInc paymentValue) .overflow
  -- payment value normalized into units (divisor nonzero, quotient ≤ t)
  let x := t * ACC / min (payAcc * ACC) U128MAX
  let y ← liftO (checkedMulFixedU startPrice startPrice) .overflow
  let z ← liftO (checkedAddU x y) .overflow
  let sqrtZ ← fixed_u128_sqrt z
  let num ← if startPrice ≤ sqrtZ then Except.ok (sqrtZ - startPrice)
    else Except.error Err.underflow
  let q0 ←
    if inc = 0 ∨ U128MAX < num * ACC / inc then Except.error Err.divisionByZero
    else Except.ok (num * ACC / inc)
  let receiveAmount ←
    if q0 * adaoAcc ≤ U128MAX then Except.ok (q0 * adaoAcc / ACC)
    else Except.error Err.overflow
  let recipRatio ← liftO (reciprocal sub.min_ratio) .divisionByZero
  let maxAmount ← liftO (checkedMulInt recipRatio payment) .overflow
  .ok (min receiveAmount maxAmount, priceDiscount)

/-- `Pallet::subscribe` (lines 293–341), composed with the staked-token
pallet's `mint_for_subscription` as wired in the runtime. -/
def subscribe (cfg : Config) (σ : State) (who : AccountId) (subscriptionId : Nat)
    (payment minTarget : Balance) (now : BlockNumber) : Except Err State := do
  let sub ← liftO (σ.subscriptions subscriptionId) .subscriptionNotFound
  let (subscriptionAmount, lastDiscount) ← subscription_amount cfg σ sub payment now
  if subscriptionAmount < sub.min_amount then
    .error .belowMinSubscriptionAmount
  else if sub.amount - sub.state.total_sold < subscriptionAmount then
    .error .subscriptionIsFull
  else if subscriptionAmount < minTarget then
    .error .belowMinTargetAmount
  else do
    let sub' := { sub with state :=
      { total_sold := sub.state.total_sold + subscriptionAmount
        last_sold_at := now
        last_discount := lastDiscount } }
    let σ := { σ with subscriptions := fun i =>
      if i = subscriptionId then some sub' else σ.subscriptions i }
    -- payment
    let σ ← σ.transfer sub.currency_id who cfg.daoPalletAccount payment
    -- mint ADAO token
    let σ ← mint_for_subscription cfg σ who subscriptionAmount sub.vesting_period now
    .ok (σ.emit (.subscribed who subscriptionId payment subscriptionAmount))

/-! ## Allocation manager (`adao-manager/src/lib.rs`) -/

/-- `Strategy::trade_amount` (lines 72–79). -/
def Strategy.trade_amount (s : Strategy) (diff mx : Int) : Int :=
  let diff_abs := |diff|
  if mx ≤ s.min_amount_per_trade ∨ diff_abs ≤ s.min_amount_per_trade then 0
  else
    let amount := satMulIntI s.percent_per_trade diff_abs
    min (min (max s.min_amount_per_trade amount) s.max_amount_per_trade) mx

/-- The `AllocationPercent` entry computed for one target allocation with
target total `total` (source lines 294–310). -/
def allocationPercentOf (total : Nat) (a : Allocation) : AllocationPercent :=
  { value := saturatingFromRational a.value total
    min := saturatingFromRational (a.value - a.range) total
    max := saturatingFromRational (satAddU a.value a.range) total }

/-- `Pallet::update_target_allocation_percents` (lines 279–315). Note the
mutation only inserts entries for the currencies currently in
`TargetAllocations`; entries of removed currencies are left in place. -/
def update_target_allocation_percents (σ : State) : Except Err State :=
  let targetTotal := σ.targetAllocations.foldl (fun acc p => satAddU acc p.2.value) 0
  if targetTotal = 0 then .error .zeroTargetAllocation
  else
    .ok { σ with targetAllocationPercents :=
      (σ.targetAllocations.foldl (fun m p =>
        mapInsert p.1 (allocationPercentOf targetTotal p.2) m)
        σ.targetAllocationPercents) }

/-- One step of the `set_target_allocations` mutation loop. -/
def setTargetsStep (σ : State) (t : CurrencyId × Option Allocation) : State :=
  match t.2 with
  | some a =>
    { σ with targetAllocations := mapInsert t.1 a σ.targetAllocations
             events := σ.events ++ [.targetAllocationSet t.1] }
  | none =>
    { σ with targetAllocations := mapRemove t.1 σ.targetAllocations
             events := σ.events ++ [.targetAllocationRemoved t.1] }

/-- `Pallet::set_target_allocations` (lines 201–223). -/
def set_target_allocations (σ : State)
    (targets : List (CurrencyId × Option Allocation)) : Except Err State :=
  update_target_allocation_percents (targets.foldl setTargetsStep σ)

/-- One step of `adjust_target_allocations`: saturating adjustment of an
existing entry. -/
def adjustAllocation (a : Allocation) (adj : AllocationAdjustment) : Allocation :=
  { value := if 0 < adj.value then satAddU a.value adj.value.toNat
             else a.value - adj.value.natAbs
    range := if 0 < adj.range then satAddU a.range adj.range.toNat
             else a.range - adj.range.natAbs }

/-- One step of the `adjust_target_allocations` mutation loop. -/
def adjustStep (σ : State) (adj : CurrencyId × AllocationAdjustment) :
    Except Err State := do
  let a ← liftO (mapGet adj.1 σ.targetAllocations) .targetAllocationNotFound
  Except.ok { σ with
    targetAllocations := mapInsert adj.1 (adjustAllocation a adj.2) σ.targetAllocations
    events := σ.events ++ [.targetAllocationAdjusted adj.1] }

/-- `Pallet::adjust_target_allocations` (lines 227–260). -/
def adjust_target_allocations (σ : State)
    (adjustments : List (CurrencyId × AllocationAdjustment)) : Except Err State := do
  let σ ← adjustments.foldlM adjustStep σ
  update_target_allocation_percents σ

/-- `Pallet::set_strategies` (lines 264–270). -/
def set_strategies (σ : State) (strategies : List Strategy) : Except Err State :=
  .ok { σ with strategies := strategies, events := σ.events ++ [.strategiesSet] }

/-- `Pallet::current_allocations` (lines 438–476). -/
def current_allocations (cfg : Config) (σ : State) :
    Except Err (List (CurrencyId × CurrentAllocation) × Balance) := do
  let currencyIds := (σ.targetAllocations.map Prod.fst).filter
    (fun c => c ≠ ADAO ∧ c ≠ SDAO)
  let (allocations, totalValue) ← currencyIds.foldlM
    (fun (acc : List (CurrencyId × CurrentAllocation) × Balance) c => do
      let price ← liftO (σ.prices c) .noPrice
      let amount := σ.balance c cfg.daoAccount
      let value := satMulInt price amount
      Except.ok (mapInsert c ⟨amount, value, 0⟩ acc.1, satAddU acc.2 value))
    ([], 0)
  if totalValue = 0 then .error .zeroTargetAllocation
  else
    .ok (allocations.map (fun p =>
      (p.1, { p.2 with percent := saturatingFromRational p.2.value totalValue })),
      totalValue)

/-- The `AllocationDiff` entry built for a currency present both in the
target-percent map and in the current allocations (lines 332–389). -/
def diffEntryBoth (tp : AllocationPercent) (cur : CurrentAllocation)
    (targetAmount : Balance) : AllocationDiff :=
  let range_diff :=
    if cur.percent < tp.min then -(i128ofU (tp.min - cur.percent))
    else if tp.max < cur.percent then i128ofU (cur.percent - tp.max)
    else 0
  let diff_percent :=
    if tp.value < cur.percent then i128ofU (cur.percent - tp.value)
    else -(i128ofU (tp.value - cur.percent))
  let diff_amount :=
    if targetAmount < cur.amount then i128ofU (cur.amount - targetAmount)
    else -(i128ofU (targetAmount - cur.amount))
  { current := cur.percent, target := tp.value, diff := diff_percent
    range_diff := range_diff, diff_amount := diff_amount }

/-- `Pallet::allocation_diff` (lines 317–435). -/
def allocation_diff (cfg : Config) (σ : State) :
    Except Err (List (CurrencyId × AllocationDiff)) := do
  let (currentAllocations, totalValue) ← current_allocations cfg σ
  let targetPercents := σ.targetAllocationPercents
  let diff ← targetPercents.foldlM
    (fun (diff : List (CurrencyId × AllocationDiff)) p => do
      let tp := p.2
      let targetValue := satMulInt tp.value totalValue
      let price ← liftO (σ.prices p.1) .noPrice
      let priceRecip ← liftO (reciprocal price) .divisionByZero
      let targetAmount := satMulInt priceRecip targetValue
      match mapGet p.1 currentAllocations with
      | some cur => Except.ok (mapInsert p.1 (diffEntryBoth tp cur targetAmount) diff)
      | none =>
        Except.ok (mapInsert p.1
          { current := 0, target := tp.value
            diff := -(i128ofU tp.value)
            range_diff := -(i128ofU tp.min)
            diff_amount := -(i128ofU targetAmount) } diff))
    []
  .ok (currentAllocations.foldl
    (fun (diff : List (CurrencyId × AllocationDiff)) p =>
      match mapGet p.1 targetPercents with
      | some _ => diff
      | none =>
        mapInsert p.1
          { current := p.2.percent, target := 0
            diff := i128ofU p.2.percent
            range_diff := i128ofU p.2.percent
            diff_amount := i128ofU p.2.amount } diff)
    diff)

/-- The injected DEX contract: `add_liquidity(who, a, b, amt_a, amt_b, 0,
false)` as an arbitrary state transformer. -/
abbrev DexFn := State → AccountId → CurrencyId → CurrencyId → Nat → Nat → Except Err State

/-- `Pallet::rebalance_ausd_adao` (lines 487–527). -/
def rebalance_ausd_adao (dex : DexFn) (cfg : Config) (σ : State) (strategy : Strategy)
    (diff : List (CurrencyId × AllocationDiff)) : Except Err State := do
  let lp := dexShareCurrencyId .AUSD .ADAO
  match mapGet lp diff with
  | none => .ok σ
  | some lpDiff =>
    if 0 ≤ lpDiff.range_diff then .ok σ
    else
      let maxAmount := ((mapGet AUSD diff).map AllocationDiff.diff_amount).getD 0
      let amount := (strategy.trade_amount lpDiff.diff_amount maxAmount).tdiv 2
      if amount ≤ 0 then .ok σ
      else do
        let adaoPrice ← liftO (σ.prices ADAO) .noPrice
        let adaoToMint := satMulIntI adaoPrice amount
        let σ ← σ.deposit ADAO cfg.managerPalletAccount adaoToMint.toNat
        let σ ← σ.transfer AUSD cfg.daoAccount cfg.managerPalletAccount amount.toNat
        let σ ← dex σ cfg.managerPalletAccount ADAO AUSD adaoToMint.toNat amount.toNat
        let lpShare := σ.balance lp cfg.managerPalletAccount
        σ.transfer lp cfg.managerPalletAccount cfg.daoAccount lpShare

/-- `Pallet::rebalance_ausd_other` (lines 530–575). -/
def rebalance_ausd_other (dex : DexFn) (cfg : Config) (σ : State) (strategy : Strategy)
    (other : TokenSymbol) (diff : List (CurrencyId × AllocationDiff)) :
    Except Err State := do
  let lp := dexShareCurrencyId .AUSD other
  match mapGet lp diff with
  | none => .ok σ
  | some lpDiff =>
    if 0 ≤ lpDiff.range_diff then .ok σ
    else do
      let otherPrice ← liftO (σ.prices (.token other)) .noPrice
      let maxOtherToAdd := σ.balance (.token other) cfg.daoAccount
      let maxOtherToAddAmount := satMulInt otherPrice maxOtherToAdd
      let maxAmount := ((mapGet AUSD diff).map AllocationDiff.diff_amount).getD 0
      let amount := (strategy.trade_amount lpDiff.diff_amount
        (min maxAmount (i128ofU maxOtherToAddAmount))).tdiv 2
      let otherToAdd := satMulIntI otherPrice amount
      if amount ≤ 0 ∨ otherToAdd ≤ 0 then .ok σ
      else dex σ cfg.daoAccount (.token other) AUSD otherToAdd.toNat amount.toNat

/-- `Pallet::rebalance` (lines 479–484). -/
def rebalance (dex : DexFn) (cfg : Config) (σ : State) (strategy : Strategy)
    (diff : List (CurrencyId × AllocationDiff)) : Except Err State :=
  match strategy.kind with
  | .liquidityProvisionAusdAdao => rebalance_ausd_adao dex cfg σ strategy diff
  | .liquidityProvisionAusdOther t => rebalance_ausd_other dex cfg σ strategy t diff

/-- The strategy the rebalance clock selects at block `now`
(`on_initialize`, lines 167–175): `none` when the block does not match the
offset, when the strategy list is empty, or (via the saturated u32 index and
the checked remainder defaulting to zero) never otherwise. -/
def selectedStrategy (strategies : List Strategy) (period offset now : Nat) :
    Option Strategy :=
  if now % period = offset then
    let index := min (now / period) (2 ^ 32 - 1)
    let strategyIndex := if strategies.length = 0 then 0 else index % strategies.length
    strategies.get? strategyIndex
  else none

/-- `Hooks::on_initialize` of the allocation manager (lines 164–188): errors
in the diff computation or the (transactional) rebalance are logged and
swallowed, leaving the state unchanged. -/
def on_initialize (dex : DexFn) (cfg : Config) (σ : State) (now : BlockNumber) : State :=
  match selectedStrategy σ.strategies cfg.rebalancePeriod cfg.rebalanceOffset now with
  | none => σ
  | some strategy =>
    match allocation_diff cfg σ with
    | .error _ => σ
    | .ok diff =>
      match rebalance dex cfg σ strategy diff with
      | .ok σ' => σ'
      | .error _ => σ

/-! ## Plumbing lemmas -/

theorem liftO_eq_ok {α : Type} (o : Option α) (e : Err) (v : α) :
    liftO o e = .ok v ↔ o = some v := by
  cases o <;> simp [liftO]

theorem liftO_eq_err {α : Type} (o : Option α) (e e' : Err) :
    liftO o e = .error e' ↔ o = none ∧ e = e' := by
  cases o <;> simp [liftO]

theorem bind_eq_ok {α β : Type} (x : Except Err α) (f : α → Except Err β) (v : β) :
    (x >>= f) = .ok v ↔ ∃ a, x = .ok a ∧ f a = .ok v := by
  cases x <;> simp [Bind.bind, Except.bind]

theorem exceptBind_eq_ok {α β : Type} (x : Except Err α) (f : α → Except Err β) (v : β) :
    Except.bind x f = .ok v ↔ ∃ a, x = .ok a ∧ f a = .ok v := by
  cases x <;> simp [Except.bind]

theorem exceptBind_ok_left {α β : Type} (x : α) (f : α → Except Err β) :
    Except.bind (Except.ok x) f = f x := rfl

theorem exceptBind_err_left {α β : Type} (e : Err) (f : α → Except Err β) :
    Except.bind (Except.error e) f = Except.error e := rfl

theorem bind_eq_err {α β : Type} (x : Except Err α) (f : α → Except Err β) (e : Err) :
    (x >>= f) = .error e ↔ x = .error e ∨ ∃ a, x = .ok a ∧ f a = .error e := by
  cases x <;> simp [Bind.bind, Except.bind]

theorem checkedMulInt_eq_some (i n v : Nat) :
    checkedMulInt i n = some v ↔ i * n / ACC = v ∧ i * n / ACC ≤ U128MAX := by
  simp only [checkedMulInt]
  split
  · next hle => simp [hle]
  · next hle => simp [hle]

theorem checkedAddU_eq_some (a b v : Nat) :
    checkedAddU a b = some v ↔ a + b = v ∧ a + b ≤ U128MAX := by
  simp only [checkedAddU]
  split
  · next hle => simp [hle]
  · next hle => simp [hle]

theorem reciprocal_eq_some (i v : Nat) :
    reciprocal i = some v ↔ i ≠ 0 ∧ ACC * ACC / i = v := by
  simp only [reciprocal]
  split
  · next h0 => simp [h0]
  · next h0 => simp [h0]

theorem checkedFromRational_eq_some (p q v : Nat) :
    checkedFromRational p q = some v ↔ q ≠ 0 ∧ p * ACC / q = v ∧ p * ACC / q ≤ U128MAX := by
  simp only [checkedFromRational]
  split
  · next h0 => simp [h0]
  · next h0 =>
    split
    · next hle => simp [h0, hle]
    · next hle => simp [h0, hle]

theorem checkedMulFixedU_eq_some (a b v : Nat) :
    checkedMulFixedU a b = some v ↔ a * b / ACC = v ∧ a * b / ACC ≤ U128MAX := by
  simp only [checkedMulFixedU]
  split
  · next hle => simp [hle]
  · next hle => simp [hle]

theorem checkedAddI_eq_some (a b v : Int) :
    checkedAddI a b = some v ↔ a + b = v ∧ inI128 (a + b) := by
  simp only [checkedAddI]
  split
  · next hr => simp [hr]
  · next hr => simp [hr]

theorem checkedSubI_eq_some (a b v : Int) :
    checkedSubI a b = some v ↔ a - b = v ∧ inI128 (a - b) := by
  simp only [checkedSubI]
  split
  · next hr => simp [hr]
  · next hr => simp [hr]

theorem checkedMulFixedI_eq_some (a b v : Int) :
    checkedMulFixedI a b = some v ↔
      (a * b).tdiv (ACC : Int) = v ∧ inI128 ((a * b).tdiv (ACC : Int)) := by
  simp only [checkedMulFixedI]
  split
  · next hr => simp [hr]
  · next hr => simp [hr]

theorem mapGet_insert_self {α : Type} (k : CurrencyId) (v : α)
    (m : List (CurrencyId × α)) : mapGet k (mapInsert k v m) = some v := by
  induction m with
  | nil => simp [mapInsert, mapGet]
  | cons hd tl ih =>
    obtain ⟨k', v'⟩ := hd
    simp only [mapInsert]
    by_cases h1 : k.idx < k'.idx
    · simp [h1, mapGet]
    · by_cases h2 : k' = k
      · simp [h1, h2, mapGet]
      · simp [h1, h2, mapGet, ih]

theorem mapGet_insert_ne {α : Type} (k j : CurrencyId) (v : α)
    (m : List (CurrencyId × α)) (hne : k ≠ j) :
    mapGet j (mapInsert k v m) = mapGet j m := by
  induction m with
  | nil => simp [mapInsert, mapGet, hne]
  | cons hd tl ih =>
    obtain ⟨k', v'⟩ := hd
    simp only [mapInsert]
    by_cases h1 : k.idx < k'.idx
    · simp [h1, mapGet, hne]
    · by_cases h2 : k' = k
      · simp [h1, h2, mapGet, hne]
      · simp [h1, h2, mapGet, ih]

/-- Folding `mapInsert` over entries whose keys avoid `c` leaves the lookup
of `c` unchanged. -/
theorem mapGet_foldl_not_mem {β : Type} (f : CurrencyId → β → AllocationPercent)
    (t : List (CurrencyId × β)) (m₀ : List (CurrencyId × AllocationPercent))
    (c : CurrencyId) (hc : c ∉ t.map Prod.fst) :
    mapGet c (t.foldl (fun m p => mapInsert p.1 (f p.1 p.2) m) m₀) = mapGet c m₀ := by
  induction t generalizing m₀ with
  | nil => rfl
  | cons hd tl ih =>
    simp only [List.map_cons, List.mem_cons, not_or] at hc
    simp only [List.foldl_cons]
    rw [ih _ hc.2, mapGet_insert_ne _ _ _ _ (fun h => hc.1 h.symm)]

/-- Folding `mapInsert` over a key-nodup list stores exactly the computed
entry for every member. -/
theorem mapGet_foldl_mem {β : Type} (f : CurrencyId → β → AllocationPercent)
    (t : List (CurrencyId × β)) (m₀ : List (CurrencyId × AllocationPercent))
    (hnd : (t.map Prod.fst).Nodup) (p : CurrencyId × β) (hp : p ∈ t) :
    mapGet p.1 (t.foldl (fun m q => mapInsert q.1 (f q.1 q.2) m) m₀) =
      some (f p.1 p.2) := by
  induction t generalizing m₀ with
  | nil => cases hp
  | cons hd tl ih =>
    simp only [List.map_cons, List.nodup_cons] at hnd
    simp only [List.foldl_cons]
    rcases List.mem_cons.mp hp with h | h
    · subst h
      rw [mapGet_foldl_not_mem _ _ _ _ hnd.1, mapGet_insert_self]
    · exact ih _ hnd.2 h

theorem foldl_satAddU (l : List Nat) (acc : Nat) (hacc : acc ≤ U128MAX) :
    l.foldl satAddU acc = min (acc + l.sum) U128MAX := by
  induction l generalizing acc with
  | nil => simpa using (Nat.min_eq_left hacc).symm
  | cons v tl ih =>
    simp only [List.foldl_cons, List.sum_cons]
    rw [ih (satAddU acc v) (Nat.min_le_right _ _)]
    unfold satAddU
    rcases Nat.le_total (acc + v) U128MAX with h | h
    · rw [Nat.min_eq_left h]; ring_nf
    · rw [Nat.min_eq_right h]
      have h1 : U128MAX ≤ U128MAX + tl.sum := Nat.le_add_right _ _
      have h2 : U128MAX ≤ acc + v + tl.sum := le_trans h (Nat.le_add_right _ _)
      rw [Nat.min_eq_right h1, Nat.min_eq_right (by omega)]

theorem sum_div_le (vs : List Nat) (T : Nat) :
    (vs.map (fun v => v * ACC / T)).sum ≤ vs.sum * ACC / T := by
  induction vs with
  | nil => simp
  | cons v tl ih =>
    simp only [List.map_cons, List.sum_cons]
    calc v * ACC / T + (tl.map (fun v => v * ACC / T)).sum
        ≤ v * ACC / T + tl.sum * ACC / T := Nat.add_le_add_left ih _
      _ ≤ (v * ACC + tl.sum * ACC) / T := Nat.add_div_le_add_div _ _ _
      _ = (v + tl.sum) * ACC / T := by ring_nf

theorem sqrtAux_spec (n : Nat) : ∀ (f acc : Nat),
    acc * acc ≤ n → n < (acc + 2 ^ f) * (acc + 2 ^ f) →
    sqrtAux n f acc * sqrtAux n f acc ≤ n ∧
      n < (sqrtAux n f acc + 1) * (sqrtAux n f acc + 1) := by
  intro f
  induction f with
  | zero =>
    intro acc h1 h2
    rw [pow_zero] at h2
    exact ⟨h1, h2⟩
  | succ f ih =>
    intro acc h1 h2
    have hp : (2 : Nat) ^ (f + 1) = 2 ^ f + 2 ^ f := by
      rw [pow_succ]; ring
    rw [hp, ← Nat.add_assoc] at h2
    by_cases hc : (acc + 2 ^ f) * (acc + 2 ^ f) ≤ n
    · simp only [sqrtAux, if_pos hc]
      exact ih _ hc h2
    · simp only [sqrtAux, if_neg hc]
      exact ih _ h1 (Nat.lt_of_not_le hc)

/-- `integerSqrt` is the floor square root on the u128 range. -/
theorem integerSqrt_spec (n : Nat) (h : n < 2 ^ 130) :
    integerSqrt n * integerSqrt n ≤ n ∧
      n < (integerSqrt n + 1) * (integerSqrt n + 1) := by
  refine sqrtAux_spec n 65 0 (by simp) ?_
  have he : ((0 : Nat) + 2 ^ 65) * (0 + 2 ^ 65) = 2 ^ 130 := by norm_num
  rw [he]
  exact h

theorem lt_div_succ_mul (a T : Nat) (hT : 0 < T) : a < (a / T + 1) * T := by
  have h1 := Nat.div_add_mod a T
  have h2 := Nat.mod_lt a hT
  calc a = T * (a / T) + a % T := h1.symm
    _ < T * (a / T) + T := by omega
    _ = (a / T + 1) * T := by ring

theorem sum_div_lower (vs : List Nat) (T : Nat) (hT : 0 < T) (hne : vs ≠ []) :
    vs.sum * ACC < ((vs.map (fun v => v * ACC / T)).sum + vs.length) * T := by
  induction vs with
  | nil => exact absurd rfl hne
  | cons v tl ih =>
    simp only [List.map_cons, List.sum_cons, List.length_cons]
    have hv : v * ACC < (v * ACC / T + 1) * T := lt_div_succ_mul _ _ hT
    rcases List.eq_nil_or_concat tl with h0 | _
    · subst h0
      simpa using hv
    · have ihne : tl ≠ [] := by
        rintro rfl
        simp_all
      have htl := ih ihne
      have hsplit : (v + tl.sum) * ACC = v * ACC + tl.sum * ACC := by ring
      rw [hsplit]
      calc v * ACC + tl.sum * ACC
          < (v * ACC / T + 1) * T +
              ((tl.map (fun v => v * ACC / T)).sum + tl.length) * T :=
            Nat.add_lt_add hv htl
        _ = (v * ACC / T + (tl.map (fun v => v * ACC / T)).sum + (tl.length + 1)) * T := by
            ring

/-- The pre-update mutation loop of `set_target_allocations` does not touch
the derived percent map. -/
theorem setTargetsStep_foldl_percents (ts : List (CurrencyId × Option Allocation))
    (σ : State) :
    (ts.foldl setTargetsStep σ).targetAllocationPercents =
      σ.targetAllocationPercents := by
  induction ts generalizing σ with
  | nil => rfl
  | cons hd tl ih =>
    rw [List.foldl_cons, ih]
    obtain ⟨c, a⟩ := hd
    cases a <;> rfl

/-- The pre-update mutation loop of `adjust_target_allocations` does not
touch the derived percent map. -/
theorem adjustStep_foldlM_percents (adjs : List (CurrencyId × AllocationAdjustment))
    (σ σ' : State) (h : adjs.foldlM adjustStep σ = .ok σ') :
    σ'.targetAllocationPercents = σ.targetAllocationPercents := by
  induction adjs generalizing σ with
  | nil =>
    simp only [List.foldlM_nil] at h
    cases h
    rfl
  | cons hd tl ih =>
    rw [List.foldlM_cons] at h
    rw [bind_eq_ok] at h
    obtain ⟨σ₁, h1, h2⟩ := h
    have hp : σ₁.targetAllocationPercents = σ.targetAllocationPercents := by
      unfold adjustStep at h1
      rw [bind_eq_ok] at h1
      obtain ⟨a, _, ha⟩ := h1
      cases ha
      rfl
    rw [ih _ h2, hp]

/-- What a successful `update_target_allocation_percents` guarantees, what
it does *not* remove, and how far the stored percents can drift. -/
theorem update_percents_spec (σ σ' : State)
    (h : update_target_allocation_percents σ = .ok σ')
    (hnd : (σ.targetAllocations.map Prod.fst).Nodup)
    (hfit : (σ.targetAllocations.map (fun p => p.2.value)).sum ≤ U128MAX) :
    0 < (σ.targetAllocations.map (fun p => p.2.value)).sum ∧
    σ'.targetAllocations = σ.targetAllocations ∧
    (∀ p ∈ σ.targetAllocations,
      mapGet p.1 σ'.targetAllocationPercents =
        some (allocationPercentOf
          ((σ.targetAllocations.map (fun q => q.2.value)).sum) p.2)) ∧
    (∀ c, c ∉ σ.targetAllocations.map Prod.fst →
      mapGet c σ'.targetAllocationPercents = mapGet c σ.targetAllocationPercents) := by
  simp only [update_target_allocation_percents] at h
  set T := (σ.targetAllocations.map (fun p => p.2.value)).sum with hT
  have hfold : σ.targetAllocations.foldl (fun acc p => satAddU acc p.2.value) 0
      = min T U128MAX := by
    rw [hT, ← List.foldl_map (fun p : CurrencyId × Allocation => p.2.value) satAddU]
    simpa using foldl_satAddU _ 0 (Nat.zero_le _)
  rw [hfold] at h
  split at h
  · cases h
  · next htot =>
    cases h
    have hTpos : 0 < T := by
      rcases Nat.eq_zero_or_pos T with h0 | h1
      · exact absurd (by simp [h0]) htot
      · exact h1
    have hmin : min T U128MAX = T := Nat.min_eq_left hfit
    refine ⟨hTpos, rfl, ?_, ?_⟩
    · intro p hp
      have h2 := mapGet_foldl_mem (fun _ a => allocationPercentOf (min T U128MAX) a)
        σ.targetAllocations σ.targetAllocationPercents hnd p hp
      rw [hmin] at h2
      simpa [hmin] using h2
    · intro c hc
      have h2 := mapGet_foldl_not_mem (fun _ a => allocationPercentOf (min T U128MAX) a)
        σ.targetAllocations σ.targetAllocationPercents c hc
      simpa [hmin] using h2

theorem transfer_eq_ok (σ : State) (c : CurrencyId) (src dst : AccountId)
    (amt : Balance) (σ' : State) (hne : src ≠ dst) :
    σ.transfer c src dst amt = .ok σ' ↔
      (σ.locked c src + amt ≤ σ.balance c src ∧
        σ' = { σ with balance := fun c' a' =>
          if c' = c ∧ a' = src then σ.balance c' a' - amt
          else if c' = c ∧ a' = dst then σ.balance c' a' + amt
          else σ.balance c' a' }) := by
  unfold State.transfer
  by_cases h1 : σ.balance c src < σ.locked c src + amt
  · rw [if_pos h1]
    constructor
    · intro hcontra; cases hcontra
    · rintro ⟨hle, -⟩; exact absurd hle (Nat.not_le.mpr h1)
  · rw [if_neg h1, if_neg hne]
    constructor
    · intro h; cases h; exact ⟨Nat.le_of_not_lt h1, rfl⟩
    · rintro ⟨-, rfl⟩; rfl

theorem deposit_eq_ok (σ : State) (c : CurrencyId) (acct : AccountId)
    (amt : Balance) (σ' : State) :
    σ.deposit c acct amt = .ok σ' ↔
      (σ.issuance c + amt ≤ U128MAX ∧
        σ' = { σ with
          issuance := fun c' => if c' = c then σ.issuance c' + amt else σ.issuance c'
          balance := fun c' a' =>
            if c' = c ∧ a' = acct then σ.balance c' a' + amt else σ.balance c' a' }) := by
  unfold State.deposit
  by_cases h1 : σ.issuance c + amt ≤ U128MAX
  · rw [if_pos h1]
    constructor
    · intro h; cases h; exact ⟨h1, rfl⟩
    · rintro ⟨-, rfl⟩; rfl
  · rw [if_neg h1]
    constructor
    · intro hcontra; cases hcontra
    · rintro ⟨hle, -⟩; exact absurd hle h1

theorem withdraw_eq_ok (σ : State) (c : CurrencyId) (acct : AccountId)
    (amt : Balance) (σ' : State) :
    σ.withdraw c acct amt = .ok σ' ↔
      (σ.locked c acct + amt ≤ σ.balance c acct ∧
        σ' = { σ with
          issuance := fun c' => if c' = c then σ.issuance c' - amt else σ.issuance c'
          balance := fun c' a' =>
            if c' = c ∧ a' = acct then σ.balance c' a' - amt else σ.balance c' a' }) := by
  unfold State.withdraw
  by_cases h1 : σ.balance c acct < σ.locked c acct + amt
  · rw [if_pos h1]
    constructor
    · intro hcontra; cases hcontra
    · rintro ⟨hle, -⟩; exact absurd hle (Nat.not_le.mpr h1)
  · rw [if_neg h1]
    constructor
    · intro h; cases h; exact ⟨Nat.le_of_not_lt h1, rfl⟩
    · rintro ⟨-, rfl⟩; rfl

/-- Detailed postcondition of a successful `stake` call (for an account
other than the pallet account): balances move by the to-staked conversion
computed at the pre-state. -/
theorem stake_ok_spec (cfg : Config) (σ : State) (who : AccountId) (a : Balance)
    (σ' : State) (h : stake cfg σ who a = .ok σ') (hwho : who ≠ cfg.palletAccount) :
    σ'.balance SDAO who = σ.balance SDAO who + stakedRecip cfg σ * a / ACC ∧
    σ'.balance ADAO who = σ.balance ADAO who - a ∧
    σ'.balance ADAO cfg.palletAccount = σ.balance ADAO cfg.palletAccount + a ∧
    σ'.issuance SDAO = σ.issuance SDAO + stakedRecip cfg σ * a / ACC ∧
    σ'.unstakeFeeRate = σ.unstakeFeeRate ∧
    σ'.locked = σ.locked ∧
    (a = 0 ∨ σ.locked ADAO who + a ≤ σ.balance ADAO who) := by
  unfold stake at h
  by_cases h0 : a = 0
  · rw [if_pos h0] at h
    cases h
    subst h0
    simp
  · rw [if_neg h0] at h
    rw [bind_eq_ok] at h
    obtain ⟨received, hrec, h⟩ := h
    rw [bind_eq_ok] at h
    obtain ⟨σ₁, htr, h⟩ := h
    rw [bind_eq_ok] at h
    obtain ⟨σ₂, hdep, hfin⟩ := h
    cases hfin
    unfold to_staked at hrec
    rw [liftO_eq_ok, checkedMulInt_eq_some] at hrec
    obtain ⟨hrec, hfit⟩ := hrec
    subst hrec
    rw [transfer_eq_ok _ _ _ _ _ _ hwho] at htr
    obtain ⟨hbal, rfl⟩ := htr
    rw [deposit_eq_ok] at hdep
    obtain ⟨hiss, rfl⟩ := hdep
    have hpw : ¬ (cfg.palletAccount = who) := fun he => hwho he.symm
    refine ⟨?_, ?_, ?_, ?_, rfl, rfl, Or.inr hbal⟩ <;>
      simp [State.emit, SDAO, ADAO, hwho, hpw]

/-- Detailed postcondition of a successful `unstake` call with a zero
unstake-fee rate: the caller receives the from-staked conversion of `s`
computed at the pre-state. -/
theorem unstake_ok_spec (cfg : Config) (σ : State) (who : AccountId) (s : Balance)
    (σ' : State) (h : unstake cfg σ who s = .ok σ')
    (hfee : σ.unstakeFeeRate = 0)
    (hwp : who ≠ cfg.palletAccount)
    (hwf : who ≠ cfg.feeDestAccount)
    (hpf : cfg.palletAccount ≠ cfg.feeDestAccount) :
    σ'.balance ADAO who = σ.balance ADAO who + exchange_rate cfg σ * s / ACC := by
  unfold unstake at h
  by_cases h0 : s = 0
  · rw [if_pos h0] at h
    cases h
    subst h0
    simp
  · rw [if_neg h0] at h
    rw [bind_eq_ok] at h
    obtain ⟨redeem, hred, h⟩ := h
    rw [bind_eq_ok] at h
    obtain ⟨fee, hf, h⟩ := h
    rw [liftO_eq_ok, checkedMulInt_eq_some, hfee] at hf
    obtain ⟨hf, -⟩ := hf
    simp only [Nat.zero_mul, Nat.zero_div] at hf
    subst hf
    simp only [Nat.zero_le, if_true, Nat.sub_zero, Bind.bind] at h
    rw [exceptBind_eq_ok] at h
    obtain ⟨received, hrecv, h⟩ := h
    cases hrecv
    rw [exceptBind_eq_ok] at h
    obtain ⟨σ₁, hwd, h⟩ := h
    rw [exceptBind_eq_ok] at h
    obtain ⟨σ₂, htr1, h⟩ := h
    rw [exceptBind_eq_ok] at h
    obtain ⟨σ₃, htr2, hfin⟩ := h
    cases hfin
    unfold from_staked at hred
    rw [liftO_eq_ok, checkedMulInt_eq_some] at hred
    obtain ⟨hred, hredfit⟩ := hred
    subst hred
    rw [withdraw_eq_ok] at hwd
    obtain ⟨hwdle, rfl⟩ := hwd
    rw [transfer_eq_ok _ _ _ _ _ _ (fun he => hwp he.symm)] at htr1
    obtain ⟨-, rfl⟩ := htr1
    rw [transfer_eq_ok _ _ _ _ _ _ hpf] at htr2
    obtain ⟨-, rfl⟩ := htr2
    have hpw : ¬ (who = cfg.palletAccount) := hwp
    have hfw : ¬ (who = cfg.feeDestAccount) := hwf
    simp [State.emit, SDAO, ADAO, hpw, hfw]

/-- A test configuration mirroring the repository's mock runtimes
(`TreasuryShare = DaoShare = 0.1`, default exchange rate `1`,
`MaxVestingChunks = 5`, rebalance period 2 with offset 1). -/
def cfg0 : Config :=
  { treasuryShare := 10 ^ 17, daoShare := 10 ^ 17, defaultExchangeRate := 10 ^ 18
    palletAccount := 1, daoAccount := 2, feeDestAccount := 3, rewardDestAccount := 4
    maxVestingChunks := 5, rebalancePeriod := 2, rebalanceOffset := 1
    daoPalletAccount := 6, managerPalletAccount := 7 }

/-- The empty genesis state. -/
def state0 : State :=
  { issuance := fun _ => 0, balance := fun _ _ => 0, locked := fun _ _ => 0
    unstakeFeeRate := 0, ledger := fun _ => none, subscriptionIndex := 0
    subscriptions := fun _ => none, targetAllocations := []
    targetAllocationPercents := [], strategies := [], prices := fun _ => none
    events := [] }

/-! ## Claim theorems -/

/-- **C6** — The allocation manager attempts a rebalance at block `b` exactly
when `b mod RebalancePeriod = RebalanceOffset`, and the strategy it then
selects is `strategies[(b / RebalancePeriod) mod len(strategies)]`, so over
consecutive firing blocks the strategies cycle in index order. (The u32
index saturation of the source is inert for `b / period < 2^32`.) -/
theorem c6_rebalance_clock (strategies : List Strategy) (period offset now : Nat)
    (hne : strategies ≠ []) (hidx : now / period < 2 ^ 32) :
    selectedStrategy strategies period offset now =
      if now % period = offset then
        some (strategies.get ⟨(now / period) % strategies.length,
          Nat.mod_lt _ (List.length_pos.mpr hne)⟩)
      else none := by
  unfold selectedStrategy
  have hl : strategies.length ≠ 0 := fun h0 => hne (List.length_eq_zero.mp h0)
  have hmin : min (now / period) (2 ^ 32 - 1) = now / period :=
    Nat.min_eq_left (by omega)
  by_cases h : now % period = offset
  · simp only [if_pos h, hmin, if_neg hl]
    rw [List.get?_eq_get (Nat.mod_lt _ (List.length_pos.mpr hne))]
  · simp only [if_neg h]

theorem c6_rebalance_clock_witness :
    selectedStrategy
      [⟨.liquidityProvisionAusdAdao, 0, 0, 0⟩,
       ⟨.liquidityProvisionAusdOther .ACA, 0, 0, 0⟩] 2 1 3 =
      some ⟨.liquidityProvisionAusdOther .ACA, 0, 0, 0⟩ := by
  have h := c6_rebalance_clock
    [⟨.liquidityProvisionAusdAdao, 0, 0, 0⟩,
     ⟨.liquidityProvisionAusdOther .ACA, 0, 0, 0⟩] 2 1 3
    (by simp) (by norm_num)
  simpa using h

/-- **C10** — With an empty strategy list, the allocation manager's
`on_initialize` selects nothing (the checked remainder defaults to `0` and
the lookup into the empty list is `none`) and leaves the state untouched:
no rebalance, and in particular no price or balance read, is attempted. -/
theorem c10_empty_strategies (dex : DexFn) (cfg : Config) (σ : State)
    (now : BlockNumber) (h : σ.strategies = []) :
    on_initialize dex cfg σ now = σ ∧
      selectedStrategy σ.strategies cfg.rebalancePeriod cfg.rebalanceOffset now = none := by
  have hsel : selectedStrategy σ.strategies cfg.rebalancePeriod cfg.rebalanceOffset now
      = none := by
    rw [h]; unfold selectedStrategy; simp
  refine ⟨?_, hsel⟩
  unfold on_initialize
  rw [hsel]

/-- **C7** — `Strategy::trade_amount` returns `0` when `max` or `|d|` is at
most `min_amount_per_trade`, and otherwise
`min(clamp(percent_per_trade·|d|, min_amount_per_trade, max_amount_per_trade), max)`
(fixed-point product, no saturation under the stated bound); and the
LP(ADAO, AUSD) rebalance is a no-op when the LP token is absent from the
diff, when its `range_diff ≥ 0`, or when `trade_amount(...)/2 ≤ 0`. -/
theorem c7_trade_amount (s : Strategy) :
    (∀ d mx : Int, s.percent_per_trade * d.natAbs / ACC ≤ I128MAXN →
      s.trade_amount d mx =
        if mx ≤ s.min_amount_per_trade ∨ |d| ≤ s.min_amount_per_trade then 0
        else min (min (max s.min_amount_per_trade
            ((s.percent_per_trade * d.natAbs / ACC : Nat) : Int))
          s.max_amount_per_trade) mx) ∧
    (∀ (dex : DexFn) (cfg : Config) (σ : State)
        (diff : List (CurrencyId × AllocationDiff)),
      (∀ lpDiff, mapGet (dexShareCurrencyId .AUSD .ADAO) diff = some lpDiff →
        0 ≤ lpDiff.range_diff ∨
          (s.trade_amount lpDiff.diff_amount
            (((mapGet AUSD diff).map AllocationDiff.diff_amount).getD 0)).tdiv 2 ≤ 0) →
      rebalance_ausd_adao dex cfg σ s diff = .ok σ) := by
  constructor
  · intro d mx hsat
    simp only [Strategy.trade_amount, satMulIntI]
    have habs : |d|.toNat = d.natAbs := by
      rw [Int.abs_eq_natAbs, Int.toNat_natCast]
    rw [habs, Nat.min_eq_left hsat]
  · intro dex cfg σ diff hcond
    simp only [rebalance_ausd_adao]
    split
    · rfl
    · next lpDiff hm =>
        rcases hcond lpDiff hm with hrd | htr
        · rw [if_pos hrd]
        · by_cases hrd : 0 ≤ lpDiff.range_diff
          · rw [if_pos hrd]
          · rw [if_neg hrd, if_pos htr]

theorem c10_empty_strategies_witness :
    on_initialize (fun σ _ _ _ _ _ => .ok σ) cfg0 state0 3 = state0 ∧
      selectedStrategy state0.strategies cfg0.rebalancePeriod cfg0.rebalanceOffset 3
        = none :=
  c10_empty_strategies (fun σ _ _ _ _ _ => .ok σ) cfg0 state0 3 rfl

/-- **C3 (counterexample)** — After `set_target_allocations` removes `ACA`
from a two-currency target map, the derived `target_percent` map keeps the
stale `ACA` entry: the stored values sum to `1.5` in fixed point, not `1`
within one ulp, refuting the claimed invariant for target-mutations that
remove currencies. -/
theorem c3_counterexample :
    ((set_target_allocations state0
        [(.token .ACA, some ⟨100, 10⟩), (AUSD, some ⟨100, 10⟩)]) >>=
      (fun σ₁ => set_target_allocations σ₁ [(.token .ACA, none)])).toOption.map
        (fun σ₂ => (σ₂.targetAllocationPercents.map (fun p => p.2.value)).sum)
      = some (15 * 10 ^ 17)
    ∧ ¬ (15 * 10 ^ 17 - ACC ≤ 1 ∧ ACC - 15 * 10 ^ 17 ≤ 1) := by
  constructor
  · rfl
  · decide

theorem allocationPercentOf_bounds (T : Nat) (a : Allocation)
    (ha : a.value ≤ T) (hT : T ≤ U128MAX) :
    (allocationPercentOf T a).value = a.value * ACC / T ∧
    (allocationPercentOf T a).min ≤ (allocationPercentOf T a).value ∧
    (allocationPercentOf T a).value ≤ (allocationPercentOf T a).max := by
  have hACC : ACC ≤ U128MAX := by decide
  have hval : a.value * ACC / T ≤ U128MAX := by
    rcases Nat.eq_zero_or_pos T with h0 | hTpos
    · simp [h0]
    · calc a.value * ACC / T ≤ T * ACC / T :=
            Nat.div_le_div_right (Nat.mul_le_mul_right _ ha)
        _ = ACC := Nat.mul_div_cancel_left _ hTpos
        _ ≤ U128MAX := hACC
  refine ⟨Nat.min_eq_left hval, ?_, ?_⟩
  · exact min_le_min
      (Nat.div_le_div_right (Nat.mul_le_mul_right _ (Nat.sub_le _ _))) (le_refl _)
  · refine min_le_min (Nat.div_le_div_right (Nat.mul_le_mul_right _ ?_)) (le_refl _)
    unfold satAddU
    exact le_min (Nat.le_add_right _ _) (le_trans ha hT)

/-- **C3 (amended)** — After a successful target mutation
(`set_target_allocations` or `adjust_target_allocations`), for every
currency *currently in the target map* the stored `target_percent` entry is
the floored rational of its value over the total, `min ≤ value ≤ max` holds
for it, and the stored values over the current target currencies sum to `1`
within `n` ulps of the `10^-18` fixed point (`n` = number of target
entries): the sum is at most `ACC` and exceeds `ACC - n`. Entries of
currencies removed from the target map are *not* deleted: their stale
percents persist unchanged, so the sum over the whole map can exceed `1`
(see the counterexample). -/
theorem c3_amended (σ σ' : State) (ts : List (CurrencyId × Option Allocation))
    (adjs : List (CurrencyId × AllocationAdjustment))
    (hop : set_target_allocations σ ts = .ok σ' ∨
      adjust_target_allocations σ adjs = .ok σ')
    (hnd : (σ'.targetAllocations.map Prod.fst).Nodup)
    (hfit : (σ'.targetAllocations.map (fun p => p.2.value)).sum ≤ U128MAX) :
    0 < (σ'.targetAllocations.map (fun p => p.2.value)).sum ∧
    (∀ p ∈ σ'.targetAllocations,
      mapGet p.1 σ'.targetAllocationPercents =
        some (allocationPercentOf
          ((σ'.targetAllocations.map (fun q => q.2.value)).sum) p.2) ∧
      (allocationPercentOf
          ((σ'.targetAllocations.map (fun q => q.2.value)).sum) p.2).min ≤
        (allocationPercentOf
          ((σ'.targetAllocations.map (fun q => q.2.value)).sum) p.2).value ∧
      (allocationPercentOf
          ((σ'.targetAllocations.map (fun q => q.2.value)).sum) p.2).value ≤
        (allocationPercentOf
          ((σ'.targetAllocations.map (fun q => q.2.value)).sum) p.2).max) ∧
    ((σ'.targetAllocations.map (fun p => (allocationPercentOf
        ((σ'.targetAllocations.map (fun q => q.2.value)).sum) p.2).value)).sum ≤ ACC ∧
      ACC < (σ'.targetAllocations.map (fun p => (allocationPercentOf
        ((σ'.targetAllocations.map (fun q => q.2.value)).sum) p.2).value)).sum
        + σ'.targetAllocations.length) ∧
    (∀ c, c ∉ σ'.targetAllocations.map Prod.fst →
      mapGet c σ'.targetAllocationPercents = mapGet c σ.targetAllocationPercents) := by
  -- Extract the intermediate state of the mutation and the update call.
  obtain ⟨σmid, hupd, hpres⟩ :
      ∃ σmid, update_target_allocation_percents σmid = .ok σ' ∧
        σmid.targetAllocationPercents = σ.targetAllocationPercents := by
    rcases hop with h | h
    · exact ⟨ts.foldl setTargetsStep σ, h, setTargetsStep_foldl_percents ts σ⟩
    · unfold adjust_target_allocations at h
      rw [bind_eq_ok] at h
      obtain ⟨σmid, h1, h2⟩ := h
      exact ⟨σmid, h2, adjustStep_foldlM_percents adjs σ σmid h1⟩
  have htgt : σ'.targetAllocations = σmid.targetAllocations := by
    simp only [update_target_allocation_percents] at hupd
    split at hupd
    · cases hupd
    · cases hupd; rfl
  rw [htgt] at hnd hfit ⊢
  obtain ⟨hpos, -, hmem, hstale⟩ := update_percents_spec σmid σ' hupd hnd hfit
  set T := (σmid.targetAllocations.map (fun p => p.2.value)).sum with hTdef
  have helem : ∀ p ∈ σmid.targetAllocations, p.2.value ≤ T := by
    intro p hp
    exact List.single_le_sum (fun x _ => Nat.zero_le x) _
      (List.mem_map.mpr ⟨p, hp, rfl⟩)
  refine ⟨hpos, ?_, ⟨?_, ?_⟩, ?_⟩
  · intro p hp
    obtain ⟨hv, hmn, hmx⟩ := allocationPercentOf_bounds T p.2 (helem p hp) hfit
    exact ⟨hmem p hp, hmn, hmx⟩
  · -- upper sum bound
    have hcong : (σmid.targetAllocations.map
        (fun p => (allocationPercentOf T p.2).value)).sum =
        ((σmid.targetAllocations.map (fun p => p.2.value)).map
          (fun v => v * ACC / T)).sum := by
      rw [List.map_map]
      refine congrArg List.sum (List.map_congr_left ?_)
      intro p hp
      exact (allocationPercentOf_bounds T p.2 (helem p hp) hfit).1
    rw [hcong]
    calc ((σmid.targetAllocations.map (fun p => p.2.value)).map
          (fun v => v * ACC / T)).sum
        ≤ T * ACC / T := by
          simpa using sum_div_le (σmid.targetAllocations.map (fun p => p.2.value)) T
      _ = ACC := Nat.mul_div_cancel_left _ hpos
  · -- lower sum bound
    have hcong : (σmid.targetAllocations.map
        (fun p => (allocationPercentOf T p.2).value)).sum =
        ((σmid.targetAllocations.map (fun p => p.2.value)).map
          (fun v => v * ACC / T)).sum := by
      rw [List.map_map]
      refine congrArg List.sum (List.map_congr_left ?_)
      intro p hp
      exact (allocationPercentOf_bounds T p.2 (helem p hp) hfit).1
    rw [hcong]
    have hne : (σmid.targetAllocations.map (fun p => p.2.value)) ≠ [] := by
      intro h0
      rw [hTdef, h0] at hpos
      exact absurd hpos (by simp)
    have hlow := sum_div_lower (σmid.targetAllocations.map (fun p => p.2.value))
      T hpos hne
    rw [← hTdef] at hlow
    have hlen : (σmid.targetAllocations.map (fun p => p.2.value)).length =
        σmid.targetAllocations.length := List.length_map _ _
    rw [hlen] at hlow
    have hmul : ACC * T <
        (((σmid.targetAllocations.map (fun p => p.2.value)).map
          (fun v => v * ACC / T)).sum + σmid.targetAllocations.length) * T := by
      calc ACC * T = T * ACC := Nat.mul_comm _ _
        _ = (σmid.targetAllocations.map (fun p => p.2.value)).sum * ACC := by
            rw [← hTdef]
        _ < _ := hlow
    exact lt_of_mul_lt_mul_right hmul (Nat.zero_le T)
  · intro c hc
    rw [hstale c hc, hpres]

/-- The state after the witness mutation for C3. -/
def c3wState : State :=
  (set_target_allocations state0
    [(.token .ACA, some ⟨100, 10⟩), (AUSD, some ⟨100, 10⟩)]).toOption.getD state0

theorem c3_amended_witness :
    0 < (c3wState.targetAllocations.map (fun p => p.2.value)).sum ∧
      (c3wState.targetAllocations.map (fun p => (allocationPercentOf
        ((c3wState.targetAllocations.map (fun q => q.2.value)).sum) p.2).value)).sum
        ≤ ACC :=
  ⟨(c3_amended state0 c3wState
      [(.token .ACA, some ⟨100, 10⟩), (AUSD, some ⟨100, 10⟩)] []
      (Or.inl rfl) (by decide) (by decide)).1,
   (c3_amended state0 c3wState
      [(.token .ACA, some ⟨100, 10⟩), (AUSD, some ⟨100, 10⟩)] []
      (Or.inl rfl) (by decide) (by decide)).2.2.1.1⟩

/-- The vesting bookkeeping of `mint_for_subscription` (bond, unbond, lock)
never touches balances or issuances. -/
theorem bondVesting_ok_fields (cfg : Config) (σ : State) (who : AccountId)
    (amt : Balance) (u : BlockNumber) (σ' : State)
    (h : bondVesting cfg σ who amt u = .ok σ') :
    σ'.balance = σ.balance ∧ σ'.issuance = σ.issuance := by
  unfold bondVesting at h
  rw [bind_eq_ok] at h
  obtain ⟨chunks, -, hfin⟩ := h
  cases hfin
  unfold applyLedger
  split <;> exact ⟨rfl, rfl⟩

/-- **C1 (amended)** — For every successful
`mint_for_subscription(who, q, vesting_period)`: with
`f = treasury_share + dao_share` and
`m = ⌊q · ⌊ACC²/(ACC−f)⌋ / ACC⌋` — `q` times the *floored fixed-point
reciprocal* of `1−f`, which can be one unit below the claimed `⌊q/(1−f)⌋`
(see the counterexample) — the `G` issuance and the pallet account's `G`
balance grow by exactly `m`; the subscriber's staked balance grows by
`to_staked(q)`, the DAO account's by `to_staked(⌊m·dao_share⌋)` and the
reward-destination account's by `to_staked(⌊m·treasury_share⌋)`, all
conversions taken at the pre-state exchange rate. -/
theorem c1_mint_for_subscription (cfg : Config) (σ : State) (who : AccountId)
    (q : Balance) (vp now : BlockNumber) (σ' : State)
    (h : mint_for_subscription cfg σ who q vp now = .ok σ')
    (h1 : who ≠ cfg.daoAccount) (h2 : who ≠ cfg.rewardDestAccount)
    (h3 : cfg.daoAccount ≠ cfg.rewardDestAccount) :
    ∃ sWho sDao sTre,
      to_staked cfg σ q = .ok sWho ∧
      to_staked cfg σ (cfg.daoShare *
        (ACC * ACC / (ACC - (cfg.treasuryShare + cfg.daoShare)) * q / ACC) / ACC)
        = .ok sDao ∧
      to_staked cfg σ (cfg.treasuryShare *
        (ACC * ACC / (ACC - (cfg.treasuryShare + cfg.daoShare)) * q / ACC) / ACC)
        = .ok sTre ∧
      σ'.issuance ADAO = σ.issuance ADAO +
        ACC * ACC / (ACC - (cfg.treasuryShare + cfg.daoShare)) * q / ACC ∧
      σ'.balance ADAO cfg.palletAccount = σ.balance ADAO cfg.palletAccount +
        ACC * ACC / (ACC - (cfg.treasuryShare + cfg.daoShare)) * q / ACC ∧
      σ'.balance SDAO who = σ.balance SDAO who + sWho ∧
      σ'.balance SDAO cfg.daoAccount = σ.balance SDAO cfg.daoAccount + sDao ∧
      σ'.balance SDAO cfg.rewardDestAccount =
        σ.balance SDAO cfg.rewardDestAccount + sTre := by
  unfold mint_for_subscription at h
  rw [bind_eq_ok] at h
  obtain ⟨fixedShare, hfs, h⟩ := h
  rw [liftO_eq_ok, checkedAddU_eq_some] at hfs
  obtain ⟨hfs, -⟩ := hfs
  subst hfs
  by_cases hle : cfg.treasuryShare + cfg.daoShare ≤ ACC
  case neg =>
    rw [if_neg hle] at h
    simp only [Bind.bind, exceptBind_err_left] at h
    cases h
  rw [if_pos hle] at h
  simp only [Bind.bind, exceptBind_ok_left] at h
  rw [exceptBind_eq_ok] at h
  obtain ⟨recip, hrec, h⟩ := h
  rw [liftO_eq_ok, reciprocal_eq_some] at hrec
  obtain ⟨-, hrec⟩ := hrec
  subst hrec
  rw [exceptBind_eq_ok] at h
  obtain ⟨mint, hm, h⟩ := h
  rw [liftO_eq_ok, checkedMulInt_eq_some] at hm
  obtain ⟨hm, -⟩ := hm
  subst hm
  rw [exceptBind_eq_ok] at h
  obtain ⟨treasuryMint, htm, h⟩ := h
  rw [liftO_eq_ok, checkedMulInt_eq_some] at htm
  obtain ⟨htm, -⟩ := htm
  subst htm
  rw [exceptBind_eq_ok] at h
  obtain ⟨daoMint, hdm, h⟩ := h
  rw [liftO_eq_ok, checkedMulInt_eq_some] at hdm
  obtain ⟨hdm, -⟩ := hdm
  subst hdm
  rw [exceptBind_eq_ok] at h
  obtain ⟨treasuryStaked, hts, h⟩ := h
  rw [exceptBind_eq_ok] at h
  obtain ⟨daoStaked, hds, h⟩ := h
  rw [exceptBind_eq_ok] at h
  obtain ⟨staked, hst, h⟩ := h
  rw [exceptBind_eq_ok] at h
  obtain ⟨σ₁, hd1, h⟩ := h
  rw [exceptBind_eq_ok] at h
  obtain ⟨σ₂, hd2, h⟩ := h
  rw [exceptBind_eq_ok] at h
  obtain ⟨σ₃, hd3, h⟩ := h
  rw [exceptBind_eq_ok] at h
  obtain ⟨σ₄, hd4, h⟩ := h
  rw [exceptBind_eq_ok] at h
  obtain ⟨σ₅, hbv, hfin⟩ := h
  cases hfin
  obtain ⟨hbal5, hiss5⟩ := bondVesting_ok_fields cfg σ₄ who staked (now + vp) σ₅ hbv
  rw [deposit_eq_ok] at hd1 hd2 hd3 hd4
  obtain ⟨-, rfl⟩ := hd1
  obtain ⟨-, rfl⟩ := hd2
  obtain ⟨-, rfl⟩ := hd3
  obtain ⟨-, rfl⟩ := hd4
  have h1s : ¬ (cfg.daoAccount = who) := fun he => h1 he.symm
  have h2s : ¬ (cfg.rewardDestAccount = who) := fun he => h2 he.symm
  have h3s : ¬ (cfg.rewardDestAccount = cfg.daoAccount) := fun he => h3 he.symm
  refine ⟨staked, daoStaked, treasuryStaked, hst, hds, hts, ?_, ?_, ?_, ?_, ?_⟩ <;>
    simp [State.emit, hbal5, hiss5, SDAO, ADAO, h1, h2, h3, h1s, h2s, h3s]

/-- State mirroring `mint_for_subscription_works`: exchange rate `8`
(pallet holds 80 G, `SDAO` issuance 10 held by account 9). -/
def c1wState : State :=
  { state0 with
    issuance := fun c => if c = SDAO then 10 else if c = ADAO then 80 else 0
    balance := fun c a =>
      if c = ADAO ∧ a = 1 then 80
      else if c = SDAO ∧ a = 9 then 10 else 0 }

def c1wRes : State :=
  (mint_for_subscription cfg0 c1wState 5 800 10 0).toOption.getD state0

theorem c1_mint_for_subscription_witness :
    c1wRes.issuance ADAO = c1wState.issuance ADAO +
      ACC * ACC / (ACC - (cfg0.treasuryShare + cfg0.daoShare)) * 800 / ACC := by
  obtain ⟨sWho, sDao, sTre, -, -, -, h4, -⟩ :=
    c1_mint_for_subscription cfg0 c1wState 5 800 10 0 c1wRes rfl
      (by decide) (by decide) (by decide)
  exact h4

/-- Configuration with `treasury_share = dao_share = 0.35`, so
`1 - f = 0.3` whose fixed-point reciprocal is inexact. -/
def cfg1x : Config :=
  { cfg0 with treasuryShare := 35 * 10 ^ 16, daoShare := 35 * 10 ^ 16 }

/-- **C1 (counterexample)** — With `f = 0.7` and `q = 3·10^17`, the minted
amount is `999999999999999999`, not the claimed
`⌊q/(1−f)⌋ = 10^18`: the reciprocal of `1−f` is floored before the
multiplication. -/
theorem c1_counterexample :
    (match mint_for_subscription cfg1x state0 5 (3 * 10 ^ 17) 10 0 with
      | .ok σ' => some (σ'.issuance ADAO)
      | .error _ => none) = some 999999999999999999 ∧
    3 * 10 ^ 17 * ACC / (ACC - (cfg1x.treasuryShare + cfg1x.daoShare)) = 10 ^ 18 ∧
    (999999999999999999 : Nat) ≠ 10 ^ 18 := by
  refine ⟨rfl, by decide, by decide⟩

/-- **C2 (amended)** — The exchange rate `X` is the floored fixed-point
rational `pallet G balance / S issuance` when the issuance is nonzero (and
the configured default otherwise); `from_staked(s) = ⌊s·X⌋` as claimed; but
`to_staked(a)` is `⌊a·⌊ACC²/X⌋ / ACC⌋` — `a` times the *floored fixed-point
reciprocal* of `X` — which can be one unit less than the claimed `⌊a/X⌋`
(see the counterexample); `stake(who, a)` credits exactly that amount. -/
theorem c2_amended (cfg : Config) (σ : State) :
    (σ.issuance SDAO = 0 → exchange_rate cfg σ = cfg.defaultExchangeRate) ∧
    (σ.issuance SDAO ≠ 0 →
      σ.balance ADAO cfg.palletAccount * ACC / σ.issuance SDAO ≤ U128MAX →
      exchange_rate cfg σ =
        σ.balance ADAO cfg.palletAccount * ACC / σ.issuance SDAO) ∧
    (∀ a : Balance, exchange_rate cfg σ ≠ 0 →
      ACC * ACC / exchange_rate cfg σ * a / ACC ≤ U128MAX →
      to_staked cfg σ a = .ok (ACC * ACC / exchange_rate cfg σ * a / ACC)) ∧
    (∀ s : Balance, exchange_rate cfg σ * s / ACC ≤ U128MAX →
      from_staked cfg σ s = .ok (exchange_rate cfg σ * s / ACC)) ∧
    (∀ (who : AccountId) (a : Balance) (σ' : State), who ≠ cfg.palletAccount →
      stake cfg σ who a = .ok σ' →
      σ'.balance SDAO who = σ.balance SDAO who + stakedRecip cfg σ * a / ACC) := by
  refine ⟨?_, ?_, ?_, ?_, ?_⟩
  · intro h0
    unfold exchange_rate
    rw [if_pos h0]
  · intro hne hfit
    simp [exchange_rate, checkedFromRational, hne, hfit]
  · intro a hX hfit
    simp [to_staked, stakedRecip, reciprocal, hX, checkedMulInt, hfit, liftO]
  · intro s hfit
    simp [from_staked, checkedMulInt, hfit, liftO]
  · intro who a σ' hwp hst
    exact (stake_ok_spec cfg σ who a σ' hst hwp).1

/-- State with exchange rate `8`: pallet holds `80` G against an `SDAO`
issuance of `10` (held by account 9); account 5 holds `40` G. -/
def c2wState : State :=
  { state0 with
    issuance := fun c => if c = SDAO then 10 else if c = ADAO then 160 else 0
    balance := fun c a =>
      if c = ADAO ∧ a = 1 then 80
      else if c = SDAO ∧ a = 9 then 10
      else if c = ADAO ∧ a = 5 then 40 else 0 }

theorem c2_amended_witness :
    to_staked cfg0 c2wState 40 =
      .ok (ACC * ACC / exchange_rate cfg0 c2wState * 40 / ACC) :=
  (c2_amended cfg0 c2wState).2.2.1 40 (by decide) (by decide)

/-- State with exchange rate exactly `3`: pallet holds `3` G against an
`SDAO` issuance of `1`; account 5 holds `3` G. -/
def c2xState : State :=
  { state0 with
    issuance := fun c => if c = SDAO then 1 else if c = ADAO then 6 else 0
    balance := fun c a =>
      if c = ADAO ∧ a = 1 then 3
      else if c = ADAO ∧ a = 5 then 3
      else if c = SDAO ∧ a = 9 then 1 else 0 }

/-- **C2 (counterexample)** — With exchange rate `X = 3` exactly, staking
`a = 3` G credits `0` staked tokens (the floored reciprocal
`⌊ACC²/3ACC⌋ = 0.333…3` times `3` truncates to `0`), while the claimed
`⌊a/X⌋ = 1`. -/
theorem c2_counterexample :
    (match stake cfg0 c2xState 5 3 with
      | .ok σ' => some (σ'.balance SDAO 5)
      | .error _ => none) = some 0 ∧
    3 * ACC / exchange_rate cfg0 c2xState = 1 ∧ (0 : Nat) ≠ 1 := by
  refine ⟨rfl, rfl, by decide⟩

/-- **C9 (amended)** — When the pallet's G balance is zero (or the rational
`total/supply` floors to zero) while the staked issuance is positive,
`exchange_rate()` is zero and `to_staked` does not divide by zero: it falls
back to the reciprocal of the configured default rate, crediting
`⌊a·⌊ACC²/X₀⌋ / ACC⌋` (the double-rounded amount, not exactly `⌊a/X₀⌋` —
see the counterexample) whenever that fits in a u128, and `stake` credits
the same amount. -/
theorem c9_zero_rate_fallback (cfg : Config) (σ : State) (a : Balance)
    (hsupply : σ.issuance SDAO ≠ 0)
    (hzero : σ.balance ADAO cfg.palletAccount * ACC / σ.issuance SDAO = 0)
    (hfit : ACC * ACC / cfg.defaultExchangeRate * a / ACC ≤ U128MAX) :
    exchange_rate cfg σ = 0 ∧
    to_staked cfg σ a = .ok (ACC * ACC / cfg.defaultExchangeRate * a / ACC) ∧
    (∀ (who : AccountId) (σ' : State), who ≠ cfg.palletAccount →
      stake cfg σ who a = .ok σ' →
      σ'.balance SDAO who = σ.balance SDAO who +
        ACC * ACC / cfg.defaultExchangeRate * a / ACC) := by
  have hrate : exchange_rate cfg σ = 0 := by
    simp [exchange_rate, checkedFromRational, hsupply, hzero]
  have hrecip : stakedRecip cfg σ = ACC * ACC / cfg.defaultExchangeRate := by
    simp [stakedRecip, hrate, reciprocal]
  refine ⟨hrate, ?_, ?_⟩
  · simp [to_staked, hrecip, checkedMulInt, hfit, liftO]
  · intro who σ' hwp hst
    rw [(stake_ok_spec cfg σ who a σ' hst hwp).1, hrecip]

/-- State with positive `SDAO` issuance but an empty pallet G balance. -/
def c9wState : State :=
  { state0 with
    issuance := fun c => if c = SDAO then 1 else 0
    balance := fun c a =>
      if c = SDAO ∧ a = 9 then 1
      else if c = ADAO ∧ a = 5 then 7 else 0 }

theorem c9_zero_rate_fallback_witness :
    to_staked cfg0 c9wState 7 =
      .ok (ACC * ACC / cfg0.defaultExchangeRate * 7 / ACC) :=
  (c9_zero_rate_fallback cfg0 c9wState 7 (by decide) (by decide) (by decide)).2.1

/-- Configuration with default exchange rate exactly `3`. -/
def cfg9 : Config := { cfg0 with defaultExchangeRate := 3 * 10 ^ 18 }

/-- **C9 (counterexample)** — With default rate `X₀ = 3`, zero pallet
balance and positive staked issuance, `to_staked(3)` credits `0`, not the
claimed `⌊a/X₀⌋ = 1`. -/
theorem c9_counterexample :
    exchange_rate cfg9 c9wState = 0 ∧
    to_staked cfg9 c9wState 3 = .ok 0 ∧
    3 * ACC / cfg9.defaultExchangeRate = 1 ∧ (0 : Nat) ≠ 1 := by
  refine ⟨rfl, rfl, rfl, by decide⟩

/-- Floor-arithmetic core of the stake/unstake round trip: with exchange
rate inner `Xi`, the credited stake is `s = ⌊⌊ACC²/Xi⌋·a/ACC⌋` and the
redeemed amount is `r = ⌊Xi·s/ACC⌋`; then `r ≤ a` and the loss `a - r` is
below `(a + ACC)/ACC · Xi/ACC + 1` — up to about `Xi/ACC` units, not one. -/
theorem roundtrip_floor_bounds (a Xi R s r : Nat) (hXi : 0 < Xi)
    (hR : R = ACC * ACC / Xi) (hs : s = R * a / ACC) (hr : r = Xi * s / ACC) :
    r ≤ a ∧ a * (ACC * ACC) < r * (ACC * ACC) + a * Xi + ACC * Xi + ACC * ACC := by
  have hACC : 0 < ACC := by norm_num [ACC]
  have h1 : s * ACC ≤ R * a := by rw [hs]; exact Nat.div_mul_le_self _ _
  have h2 : r * ACC ≤ Xi * s := by rw [hr]; exact Nat.div_mul_le_self _ _
  have h3 : R * Xi ≤ ACC * ACC := by rw [hR]; exact Nat.div_mul_le_self _ _
  have l1 : R * a < s * ACC + ACC := by
    have h := lt_div_succ_mul (R * a) ACC hACC
    rw [← hs] at h
    linarith
  have l2 : Xi * s < r * ACC + ACC := by
    have h := lt_div_succ_mul (Xi * s) ACC hACC
    rw [← hr] at h
    linarith
  have l3 : ACC * ACC < R * Xi + Xi := by
    have h := lt_div_succ_mul (ACC * ACC) Xi hXi
    rw [← hR] at h
    linarith
  have hub : r * (ACC * ACC) ≤ a * (ACC * ACC) := by
    calc r * (ACC * ACC) = r * ACC * ACC := by ring
      _ ≤ Xi * s * ACC := Nat.mul_le_mul_right ACC h2
      _ = Xi * (s * ACC) := by ring
      _ ≤ Xi * (R * a) := Nat.mul_le_mul_left Xi h1
      _ = R * Xi * a := by ring
      _ ≤ ACC * ACC * a := Nat.mul_le_mul_right a h3
      _ = a * (ACC * ACC) := by ring
  refine ⟨Nat.le_of_mul_le_mul_right hub (Nat.mul_pos hACC hACC), ?_⟩
  rcases Nat.eq_zero_or_pos a with ha0 | ha
  · subst ha0
    calc 0 * (ACC * ACC) = 0 := by ring
      _ < ACC * ACC := Nat.mul_pos hACC hACC
      _ ≤ r * (ACC * ACC) + 0 * Xi + ACC * Xi + ACC * ACC := Nat.le_add_left _ _
  · calc a * (ACC * ACC)
        < a * (R * Xi + Xi) := mul_lt_mul_of_pos_left l3 ha
      _ = R * a * Xi + a * Xi := by ring
      _ ≤ (s * ACC + ACC) * Xi + a * Xi :=
          Nat.add_le_add_right (Nat.mul_le_mul_right Xi (Nat.le_of_lt l1)) _
      _ = Xi * s * ACC + (ACC * Xi + a * Xi) := by ring
      _ ≤ (r * ACC + ACC) * ACC + (ACC * Xi + a * Xi) :=
          Nat.add_le_add_right (Nat.mul_le_mul_right ACC (Nat.le_of_lt l2)) _
      _ = r * (ACC * ACC) + a * Xi + ACC * Xi + ACC * ACC := by ring

/-- **C8 (amended)** — For `a > 0` with `unstake_fee_rate = 0` and an
exchange rate that is nonzero and unchanged between the calls,
`stake(who, a)` followed by `unstake(who, s)` of the `s` staked tokens just
received pays back `r = ⌊X·s/ACC⌋` G exactly; `r` never exceeds `a`, but the
round-trip loss `a - r` is *not* bounded by one unit of integer rounding:
it is only bounded by (roughly) `X/ACC + 1` units, as
`a·ACC² < r·ACC² + a·Xᵢ + ACC·Xᵢ + ACC²` with `Xᵢ` the fixed-point inner
value of the rate. -/
theorem c8_stake_unstake_roundtrip (cfg : Config) (σ σ₁ σ₂ : State)
    (who : AccountId) (a s : Balance)
    (ha : 0 < a)
    (hfee : σ.unstakeFeeRate = 0)
    (hwp : who ≠ cfg.palletAccount)
    (hwf : who ≠ cfg.feeDestAccount)
    (hpf : cfg.palletAccount ≠ cfg.feeDestAccount)
    (hX : exchange_rate cfg σ ≠ 0)
    (hstake : stake cfg σ who a = .ok σ₁)
    (hs : s = σ₁.balance SDAO who - σ.balance SDAO who)
    (hrate : exchange_rate cfg σ₁ = exchange_rate cfg σ)
    (hunstake : unstake cfg σ₁ who s = .ok σ₂) :
    σ₂.balance ADAO who + a = σ.balance ADAO who + exchange_rate cfg σ * s / ACC ∧
    exchange_rate cfg σ * s / ACC ≤ a ∧
    a * (ACC * ACC) < exchange_rate cfg σ * s / ACC * (ACC * ACC)
      + a * exchange_rate cfg σ + ACC * exchange_rate cfg σ + ACC * ACC := by
  obtain ⟨hb1, hb2, hb3, hb4, hfr, hlk, hsp⟩ := stake_ok_spec cfg σ who a σ₁ hstake hwp
  have hsp' : σ.locked ADAO who + a ≤ σ.balance ADAO who := by
    rcases hsp with h0 | h
    · exact absurd h0 (Nat.pos_iff_ne_zero.mp ha)
    · exact h
  have ha_le : a ≤ σ.balance ADAO who := le_trans (Nat.le_add_left a _) hsp'
  have hsv : s = stakedRecip cfg σ * a / ACC := by
    rw [hs, hb1, Nat.add_sub_cancel_left]
  have hfee1 : σ₁.unstakeFeeRate = 0 := by rw [hfr, hfee]
  have hub := unstake_ok_spec cfg σ₁ who s σ₂ hunstake hfee1 hwp hwf hpf
  rw [hrate] at hub
  have hXpos : 0 < exchange_rate cfg σ := Nat.pos_of_ne_zero hX
  have hrecip : stakedRecip cfg σ = ACC * ACC / exchange_rate cfg σ := by
    simp [stakedRecip, reciprocal, hX]
  have hbounds := roundtrip_floor_bounds a (exchange_rate cfg σ)
      (stakedRecip cfg σ) s (exchange_rate cfg σ * s / ACC) hXpos hrecip hsv rfl
  refine ⟨?_, hbounds.1, hbounds.2⟩
  rw [hub, hb2, Nat.add_right_comm, Nat.sub_add_cancel ha_le]

/-- State for the C8 round trip: the pallet holds `10^20` G against a
staked issuance of `10^19` (rate `X = 10`), and account `5` holds `19` G. -/
def c8wState : State :=
  { state0 with
    issuance := fun c => if c = SDAO then 10 ^ 19
      else if c = ADAO then 10 ^ 20 + 19 else 0
    balance := fun c acct =>
      if c = ADAO ∧ acct = 1 then 10 ^ 20
      else if c = SDAO ∧ acct = 9 then 10 ^ 19
      else if c = ADAO ∧ acct = 5 then 19 else 0 }

/-- The state after account `5` stakes its `19` G. -/
def c8wState1 : State := (stake cfg0 c8wState 5 19).toOption.getD state0

/-- The state after account `5` unstakes the `1` S it just received. -/
def c8wState2 : State := (unstake cfg0 c8wState1 5 1).toOption.getD state0

theorem c8_stake_unstake_roundtrip_witness :
    exchange_rate cfg0 c8wState * 1 / ACC ≤ 19 :=
  (c8_stake_unstake_roundtrip cfg0 c8wState c8wState1 c8wState2 5 19 1
    (by decide) rfl (by decide) (by decide) (by decide) (by decide)
    rfl (by decide) (by decide) rfl).2.1

/-- **C8 (counterexample)** — With rate `X = 10` (unchanged across the two
calls) and zero unstake fee, staking `a = 19` G credits `s = 1` S, and
unstaking that `1` S returns only `10` G: the round-trip loss is `9` units,
not at most one unit of integer rounding. -/
theorem c8_counterexample :
    c8wState.unstakeFeeRate = 0 ∧
    exchange_rate cfg0 c8wState = 10 * ACC ∧
    exchange_rate cfg0 c8wState1 = exchange_rate cfg0 c8wState ∧
    c8wState.balance ADAO 5 = 19 ∧
    c8wState1.balance SDAO 5 - c8wState.balance SDAO 5 = 1 ∧
    (stake cfg0 c8wState 5 19).isOk = true ∧
    (unstake cfg0 c8wState1 5 1).isOk = true ∧
    c8wState2.balance ADAO 5 = 10 ∧
    ¬ (19 - 10 ≤ 1) := by
  exact ⟨rfl, by decide, by decide, by decide, by decide, rfl, rfl, by decide, by decide⟩

theorem c7_trade_amount_witness :
    Strategy.trade_amount
        ⟨.liquidityProvisionAusdAdao, 5 * 10 ^ 17, 1000000, -1000000⟩ (-333334) 200000 =
      166667 := by
  have h := (c7_trade_amount
    ⟨.liquidityProvisionAusdAdao, 5 * 10 ^ 17, 1000000, -1000000⟩).1
    (-333334) 200000 (by norm_num [ACC, I128MAXN])
  rw [h]
  norm_num [ACC]

/-- Success of a bound do-`if` whose then-branch proceeds and whose
else-branch errors (the join point appears inlined in both branches). -/
theorem exceptBind_if_ok_err {c : Prop} [Decidable c] {α β : Type} (e : Err)
    (v : α) (k k₂ : α → Except Err β) (w : β)
    (h : (if c then Except.bind (Except.ok v) k
          else Except.bind (Except.error e) k₂) = .ok w) :
    c ∧ k v = .ok w := by
  by_cases hc : c
  · rw [if_pos hc, exceptBind_ok_left] at h
    exact ⟨hc, h⟩
  · rw [if_neg hc, exceptBind_err_left] at h
    cases h

/-- Success of a bound do-`if` whose then-branch errors. -/
theorem exceptBind_if_err_ok {c : Prop} [Decidable c] {α β : Type} (e : Err)
    (v : α) (k : α → Except Err β) (k₂ : α → Except Err β) (w : β)
    (h : (if c then Except.bind (Except.error e) k₂
          else Except.bind (Except.ok v) k) = .ok w) :
    ¬c ∧ k v = .ok w := by
  by_cases hc : c
  · rw [if_pos hc, exceptBind_err_left] at h
    cases h
  · rw [if_neg hc, exceptBind_ok_left] at h
    exact ⟨hc, h⟩

/-- Success of a plain bind whose source is an `if` erroring in the
then-branch. -/
theorem bindIf_err_ok {c : Prop} [Decidable c] {α β : Type} (e : Err)
    (v : α) (k : α → Except Err β) (w : β)
    (h : Except.bind (if c then Except.error e else Except.ok v) k = .ok w) :
    ¬c ∧ k v = .ok w := by
  by_cases hc : c
  · rw [if_pos hc, exceptBind_err_left] at h
    cases h
  · rw [if_neg hc, exceptBind_ok_left] at h
    exact ⟨hc, h⟩

/-- `transfer` never touches the subscription store. -/
theorem transfer_ok_subscriptions (σ : State) (c : CurrencyId) (src dst : AccountId)
    (amt : Balance) (σ' : State) (h : σ.transfer c src dst amt = .ok σ') :
    σ'.subscriptions = σ.subscriptions := by
  unfold State.transfer at h
  split at h
  · cases h
  · split at h
    · cases h; rfl
    · cases h; rfl

/-- `mint_for_subscription` never touches the subscription store. -/
theorem mint_for_subscription_subscriptions (cfg : Config) (σ : State)
    (who : AccountId) (amt : Balance) (vp now : BlockNumber) (σ' : State)
    (h : mint_for_subscription cfg σ who amt vp now = .ok σ') :
    σ'.subscriptions = σ.subscriptions := by
  unfold mint_for_subscription at h
  simp only [Bind.bind] at h
  rw [exceptBind_eq_ok] at h
  obtain ⟨fixedShare, -, h⟩ := h
  obtain ⟨-, h⟩ := exceptBind_if_ok_err _ _ _ _ _ h
  rw [exceptBind_eq_ok] at h
  obtain ⟨recip, -, h⟩ := h
  rw [exceptBind_eq_ok] at h
  obtain ⟨mint, -, h⟩ := h
  rw [exceptBind_eq_ok] at h
  obtain ⟨treasuryMint, -, h⟩ := h
  rw [exceptBind_eq_ok] at h
  obtain ⟨daoMint, -, h⟩ := h
  rw [exceptBind_eq_ok] at h
  obtain ⟨treasuryStaked, -, h⟩ := h
  rw [exceptBind_eq_ok] at h
  obtain ⟨daoStaked, -, h⟩ := h
  rw [exceptBind_eq_ok] at h
  obtain ⟨staked, -, h⟩ := h
  rw [exceptBind_eq_ok] at h
  obtain ⟨σ₁, hd1, h⟩ := h
  rw [exceptBind_eq_ok] at h
  obtain ⟨σ₂, hd2, h⟩ := h
  rw [exceptBind_eq_ok] at h
  obtain ⟨σ₃, hd3, h⟩ := h
  rw [exceptBind_eq_ok] at h
  obtain ⟨σ₄, hd4, h⟩ := h
  rw [exceptBind_eq_ok] at h
  obtain ⟨σ₅, hbv, hfin⟩ := h
  cases hfin
  rw [deposit_eq_ok] at hd1 hd2 hd3 hd4
  obtain ⟨-, rfl⟩ := hd1
  obtain ⟨-, rfl⟩ := hd2
  obtain ⟨-, rfl⟩ := hd3
  obtain ⟨-, rfl⟩ := hd4
  unfold bondVesting at hbv
  rw [bind_eq_ok] at hbv
  obtain ⟨chunks, -, hfin⟩ := hbv
  cases hfin
  unfold applyLedger
  by_cases hce : chunks.isEmpty = true
  · rw [if_pos hce]
    rfl
  · rw [if_neg hce]
    rfl

/-- `ADAO` has 12 decimals, so one whole unit is `10^12`. -/
theorem currency_accuracy_ADAO : currency_accuracy ADAO = Except.ok (10 ^ 12) := rfl

set_option maxHeartbeats 1000000 in
set_option maxRecDepth 8192 in
/-- **C5** — For every successful quote on subscription state
`(total_sold, last_sold_at, last_discount)` at block `now`, the discount
used for pricing is
`min(discount.max, last_discount + inc_on_idle·⌊(now−last_sold_at)/interval⌋
− dec_per_unit·⌊total_sold/10^12⌋)` (so it never exceeds `discount.max`,
and the formula can produce a negative value), and on a successful
`subscribe` it is stored back as the new `last_discount`, with
`last_sold_at = now` and `total_sold` grown by the quoted amount. Stated
below the inert saturation bounds of the source (`u64` idle intervals,
`i128` unit count). -/
theorem c5_price_discount (cfg : Config) (σ : State) (sub : Subscription)
    (payment : Balance) (now : BlockNumber) (q : Balance) (d : Int)
    (h : subscription_amount cfg σ sub payment now = .ok (q, d))
    (hk : (now - sub.state.last_sold_at) / sub.discount.interval ≤ 2 ^ 64 - 1)
    (hu : sub.state.total_sold / 10 ^ 12 ≤ I128MAXN) :
    d = min (sub.state.last_discount
          + sub.discount.inc_on_idle
              * (((now - sub.state.last_sold_at) / sub.discount.interval : Nat) : Int)
          - sub.discount.dec_per_unit
              * ((sub.state.total_sold / 10 ^ 12 : Nat) : Int))
        sub.discount.max ∧
    d ≤ sub.discount.max ∧
    ∀ who subscriptionId minTarget σ',
      σ.subscriptions subscriptionId = some sub →
      subscribe cfg σ who subscriptionId payment minTarget now = .ok σ' →
      ∃ sub', σ'.subscriptions subscriptionId = some sub' ∧
        sub'.state.last_discount = d ∧ sub'.state.last_sold_at = now ∧
        sub'.state.total_sold = sub.state.total_sold + q := by
  have hACCz : ((ACC : Nat) : Int) ≠ 0 := by norm_num [ACC]
  have hd : d = min (sub.state.last_discount
      + sub.discount.inc_on_idle
          * (((now - sub.state.last_sold_at) / sub.discount.interval : Nat) : Int)
      - sub.discount.dec_per_unit
          * ((sub.state.total_sold / 10 ^ 12 : Nat) : Int))
      sub.discount.max := by
    simp only [subscription_amount, Bind.bind] at h
    rw [exceptBind_eq_ok] at h
    obtain ⟨adaoPrice, -, h⟩ := h
    rw [exceptBind_eq_ok] at h
    obtain ⟨paymentPrice, -, h⟩ := h
    obtain ⟨-, h⟩ := bindIf_err_ok _ _ _ _ h
    rw [Nat.min_eq_left hk] at h
    rw [exceptBind_eq_ok] at h
    obtain ⟨discountInc, hinc, h⟩ := h
    rw [liftO_eq_ok, checkedMulFixedI_eq_some] at hinc
    obtain ⟨hinc, -⟩ := hinc
    rw [show sub.discount.inc_on_idle *
          ((((now - sub.state.last_sold_at) / sub.discount.interval : Nat) : Int)
            * ((ACC : Nat) : Int))
        = sub.discount.inc_on_idle *
            (((now - sub.state.last_sold_at) / sub.discount.interval : Nat) : Int)
          * ((ACC : Nat) : Int) from (mul_assoc _ _ _).symm,
      Int.mul_tdiv_cancel _ hACCz] at hinc
    subst hinc
    rw [currency_accuracy_ADAO, exceptBind_ok_left] at h
    rw [show i128ofU (sub.state.total_sold / 10 ^ 12)
        = ((sub.state.total_sold / 10 ^ 12 : Nat) : Int) from by
          rw [i128ofU, Nat.min_eq_left hu]] at h
    obtain ⟨-, h⟩ := exceptBind_if_ok_err _ _ _ _ _ h
    rw [exceptBind_eq_ok] at h
    obtain ⟨discountDec, hdec, h⟩ := h
    rw [liftO_eq_ok, checkedMulFixedI_eq_some] at hdec
    obtain ⟨hdec, -⟩ := hdec
    rw [show sub.discount.dec_per_unit *
          (((sub.state.total_sold / 10 ^ 12 : Nat) : Int) * ((ACC : Nat) : Int))
        = sub.discount.dec_per_unit *
            ((sub.state.total_sold / 10 ^ 12 : Nat) : Int) * ((ACC : Nat) : Int)
        from (mul_assoc _ _ _).symm,
      Int.mul_tdiv_cancel _ hACCz] at hdec
    subst hdec
    rw [exceptBind_eq_ok] at h
    obtain ⟨d1, hd1, h⟩ := h
    rw [liftO_eq_ok, checkedAddI_eq_some] at hd1
    obtain ⟨hd1, -⟩ := hd1
    subst hd1
    rw [exceptBind_eq_ok] at h
    obtain ⟨d2, hd2, h⟩ := h
    rw [liftO_eq_ok, checkedSubI_eq_some] at hd2
    obtain ⟨hd2, -⟩ := hd2
    subst hd2
    rw [exceptBind_eq_ok] at h
    obtain ⟨ratio, -, h⟩ := h
    rw [exceptBind_eq_ok] at h
    obtain ⟨startPrice, -, h⟩ := h
    obtain ⟨-, h⟩ := exceptBind_if_ok_err _ _ _ _ _ h
    rw [exceptBind_eq_ok] at h
    obtain ⟨paymentValue, -, h⟩ := h
    rw [exceptBind_eq_ok] at h
    obtain ⟨inc0, -, h⟩ := h
    rw [exceptBind_eq_ok] at h
    obtain ⟨payAcc, -, h⟩ := h
    rw [exceptBind_eq_ok] at h
    obtain ⟨twoInc, -, h⟩ := h
    rw [exceptBind_eq_ok] at h
    obtain ⟨t, -, h⟩ := h
    rw [exceptBind_eq_ok] at h
    obtain ⟨y, -, h⟩ := h
    rw [exceptBind_eq_ok] at h
    obtain ⟨z, -, h⟩ := h
    rw [exceptBind_eq_ok] at h
    obtain ⟨sqrtZ, -, h⟩ := h
    obtain ⟨-, h⟩ := exceptBind_if_ok_err _ _ _ _ _ h
    obtain ⟨-, h⟩ := exceptBind_if_err_ok _ _ _ _ _ h
    obtain ⟨-, h⟩ := exceptBind_if_ok_err _ _ _ _ _ h
    rw [exceptBind_eq_ok] at h
    obtain ⟨recipRatio, -, h⟩ := h
    rw [exceptBind_eq_ok] at h
    obtain ⟨maxAmount, -, h⟩ := h
    injection h with h
    injection h with h1 h2
    exact h2.symm
  refine ⟨hd, by rw [hd]; exact min_le_right _ _, ?_⟩
  intro who subscriptionId minTarget σ' hsubs hcall
  simp only [subscribe, Bind.bind] at hcall
  rw [exceptBind_eq_ok] at hcall
  obtain ⟨sub₀, hs0, hcall⟩ := hcall
  rw [liftO_eq_ok, hsubs] at hs0
  injection hs0 with hs0
  subst hs0
  rw [exceptBind_eq_ok] at hcall
  obtain ⟨p, hp, hcall⟩ := hcall
  obtain ⟨q', d'⟩ := p
  rw [h] at hp
  injection hp with hp
  injection hp with hpq hpd
  subst hpq
  subst hpd
  simp only [] at hcall
  by_cases hc1 : q < sub.min_amount
  case pos => rw [if_pos hc1] at hcall; cases hcall
  rw [if_neg hc1] at hcall
  by_cases hc2 : sub.amount - sub.state.total_sold < q
  case pos => rw [if_pos hc2] at hcall; cases hcall
  rw [if_neg hc2] at hcall
  by_cases hc3 : q < minTarget
  case pos => rw [if_pos hc3] at hcall; cases hcall
  rw [if_neg hc3] at hcall
  rw [exceptBind_eq_ok] at hcall
  obtain ⟨σ₁, htr, hcall⟩ := hcall
  rw [exceptBind_eq_ok] at hcall
  obtain ⟨σ₂, hmint, hfin⟩ := hcall
  cases hfin
  have ht := transfer_ok_subscriptions _ _ _ _ _ _ htr
  have hm := mint_for_subscription_subscriptions _ _ _ _ _ _ _ hmint
  refine ⟨{ sub with state :=
      { total_sold := sub.state.total_sold + q
        last_sold_at := now
        last_discount := d } }, ?_, rfl, rfl, rfl⟩
  simp only [State.emit]
  rw [hm, ht]
  simp


/-- Subscription fixture mirroring the dao mock runtime's default
subscription (payment in `AUSD`, `min_ratio = 0.1`, discount max `0.2`,
`inc_on_idle = 0.001`, `dec_per_unit = 2·10^-7`), with
`last_discount = 0.05`. -/
def c5wSub : Subscription :=
  { currency_id := AUSD, vesting_period := 1000, min_amount := 10 ^ 13
    min_ratio := 10 ^ 17, amount := 10 ^ 18
    discount := { max := 2 * 10 ^ 17, interval := 1, inc_on_idle := 10 ^ 15
                  dec_per_unit := 2 * 10 ^ 11 }
    state := { total_sold := 0, last_sold_at := 0, last_discount := 5 * 10 ^ 16 } }
/-- Oracle state for the C5 witness: `ADAO` and `AUSD` both priced at 1. -/
def c5wState : State :=
  { state0 with prices := fun c =>
      if c = ADAO then some ACC else if c = AUSD then some ACC else none }
set_option maxRecDepth 100000 in
theorem c5_price_discount_witness :
    (51 * 10 ^ 15 : Int) = min (c5wSub.state.last_discount
        + c5wSub.discount.inc_on_idle
            * (((1 - c5wSub.state.last_sold_at) / c5wSub.discount.interval : Nat) : Int)
        - c5wSub.discount.dec_per_unit
            * ((c5wSub.state.total_sold / 10 ^ 12 : Nat) : Int))
      c5wSub.discount.max :=
  (c5_price_discount cfg0 c5wState c5wSub (10 ^ 14) 1 105370000000000 (51 * 10 ^ 15)
    (by rfl) (by decide) (by decide)).1

/-- Error characterization of an `Except` bind. -/
theorem exceptBind_eq_err {α β : Type} (x : Except Err α) (f : α → Except Err β) (e : Err) :
    Except.bind x f = .error e ↔ x = .error e ∨ ∃ a, x = .ok a ∧ f a = .error e := by
  cases x <;> simp [Except.bind]

/-- `transfer` can only fail with `balanceTooLow`. -/
theorem transfer_err (σ : State) (c : CurrencyId) (src dst : AccountId)
    (amt : Balance) (e : Err) (h : σ.transfer c src dst amt = .error e) :
    e = .balanceTooLow := by
  unfold State.transfer at h
  split at h
  · cases h; rfl
  · split at h <;> cases h

/-- `deposit` can only fail with `overflow`. -/
theorem deposit_err (σ : State) (c : CurrencyId) (acct : AccountId)
    (amt : Balance) (e : Err) (h : σ.deposit c acct amt = .error e) :
    e = .overflow := by
  unfold State.deposit at h
  split at h
  · cases h
  · cases h; rfl

/-- `bondVesting` can only fail with `maxVestingChunkExceeded`. -/
theorem bondVesting_err (cfg : Config) (σ : State) (who : AccountId)
    (amt : Balance) (u : BlockNumber) (e : Err)
    (h : bondVesting cfg σ who amt u = .error e) :
    e = .maxVestingChunkExceeded := by
  unfold bondVesting at h
  rw [bind_eq_err] at h
  rcases h with h | ⟨chunks, -, h⟩
  · unfold pushChunk at h
    split at h
    · cases h
    · split at h
      · cases h
      · cases h; rfl
  · cases h

/-- The error codes `mint_for_subscription` can produce — never one of the
three subscription-check errors. -/
theorem mint_for_subscription_err (cfg : Config) (σ : State) (who : AccountId)
    (amt : Balance) (vp now : BlockNumber) (e : Err)
    (h : mint_for_subscription cfg σ who amt vp now = .error e) :
    e = .overflow ∨ e = .underflow ∨ e = .divisionByZero ∨
      e = .maxVestingChunkExceeded := by
  unfold mint_for_subscription at h
  simp only [Bind.bind] at h
  rw [exceptBind_eq_err] at h
  rcases h with h | ⟨fixedShare, -, h⟩
  · rw [liftO_eq_err] at h
    exact Or.inl h.2.symm
  by_cases hle : fixedShare ≤ ACC
  case neg =>
    rw [if_neg hle, exceptBind_err_left] at h
    injection h with h
    exact Or.inr (Or.inl h.symm)
  rw [if_pos hle, exceptBind_ok_left] at h
  rw [exceptBind_eq_err] at h
  rcases h with h | ⟨recip, -, h⟩
  · rw [liftO_eq_err] at h
    exact Or.inr (Or.inr (Or.inl h.2.symm))
  rw [exceptBind_eq_err] at h
  rcases h with h | ⟨mint, -, h⟩
  · rw [liftO_eq_err] at h
    exact Or.inl h.2.symm
  rw [exceptBind_eq_err] at h
  rcases h with h | ⟨treasuryMint, -, h⟩
  · rw [liftO_eq_err] at h
    exact Or.inl h.2.symm
  rw [exceptBind_eq_err] at h
  rcases h with h | ⟨daoMint, -, h⟩
  · rw [liftO_eq_err] at h
    exact Or.inl h.2.symm
  rw [exceptBind_eq_err] at h
  rcases h with h | ⟨treasuryStaked, -, h⟩
  · unfold to_staked at h
    rw [liftO_eq_err] at h
    exact Or.inl h.2.symm
  rw [exceptBind_eq_err] at h
  rcases h with h | ⟨daoStaked, -, h⟩
  · unfold to_staked at h
    rw [liftO_eq_err] at h
    exact Or.inl h.2.symm
  rw [exceptBind_eq_err] at h
  rcases h with h | ⟨staked, -, h⟩
  · unfold to_staked at h
    rw [liftO_eq_err] at h
    exact Or.inl h.2.symm
  rw [exceptBind_eq_err] at h
  rcases h with h | ⟨σ₁, -, h⟩
  · exact Or.inl (deposit_err _ _ _ _ _ h)
  rw [exceptBind_eq_err] at h
  rcases h with h | ⟨σ₂, -, h⟩
  · exact Or.inl (deposit_err _ _ _ _ _ h)
  rw [exceptBind_eq_err] at h
  rcases h with h | ⟨σ₃, -, h⟩
  · exact Or.inl (deposit_err _ _ _ _ _ h)
  rw [exceptBind_eq_err] at h
  rcases h with h | ⟨σ₄, -, h⟩
  · exact Or.inl (deposit_err _ _ _ _ _ h)
  rw [exceptBind_eq_err] at h
  rcases h with h | ⟨σ₅, -, h⟩
  · exact Or.inr (Or.inr (Or.inr (bondVesting_err _ _ _ _ _ _ h)))
  cases h

/-- The error codes of `subscribe`'s post-check tail (payment transfer
followed by the mint) — never one of the three subscription-check errors. -/
theorem subscribeTail_err (cfg : Config) (σm : State) (who : AccountId)
    (c : CurrencyId) (payment amt : Balance) (vp now : BlockNumber)
    (ev : State → Event) (e : Err)
    (h : Except.bind (State.transfer σm c who cfg.daoPalletAccount payment)
      (fun σ₁ => Except.bind (mint_for_subscription cfg σ₁ who amt vp now)
        (fun σ₂ => Except.ok (σ₂.emit (ev σ₂)))) = .error e) :
    e = .balanceTooLow ∨ e = .overflow ∨ e = .underflow ∨ e = .divisionByZero ∨
      e = .maxVestingChunkExceeded := by
  rw [exceptBind_eq_err] at h
  rcases h with h | ⟨σ₁, -, h⟩
  · exact Or.inl (transfer_err _ _ _ _ _ _ h)
  rw [exceptBind_eq_err] at h
  rcases h with h | ⟨σ₂, -, h⟩
  · exact Or.inr (mint_for_subscription_err _ _ _ _ _ _ _ h)
  cases h

set_option maxHeartbeats 1000000 in
set_option maxRecDepth 8192 in
/-- **C4** — Given the stored subscription and its quote `q`: `subscribe`
fails with `BelowMinSubscriptionAmount` iff `q < min_amount`; with
`SubscriptionIsFull` iff the first check passes and
`amount − total_sold < q`; with `BelowMinTargetAmount` iff the first two
checks pass and `q < min_target` — the checks run in exactly that order
after quoting, and no later step can produce these error codes. And
whenever `subscribe` returns any error, the transactional wrapper leaves
the whole state — subscription record, balances, ledger and event
journal — unchanged. -/
theorem c4_subscribe_errors (cfg : Config) (σ : State) (who : AccountId)
    (subscriptionId : Nat) (payment minTarget : Balance) (now : BlockNumber)
    (sub : Subscription) (q : Balance) (d : Int)
    (hsub : σ.subscriptions subscriptionId = some sub)
    (hq : subscription_amount cfg σ sub payment now = .ok (q, d)) :
    (subscribe cfg σ who subscriptionId payment minTarget now =
        .error .belowMinSubscriptionAmount ↔ q < sub.min_amount) ∧
    (subscribe cfg σ who subscriptionId payment minTarget now =
        .error .subscriptionIsFull ↔
      ¬ q < sub.min_amount ∧ sub.amount - sub.state.total_sold < q) ∧
    (subscribe cfg σ who subscriptionId payment minTarget now =
        .error .belowMinTargetAmount ↔
      ¬ q < sub.min_amount ∧ ¬ sub.amount - sub.state.total_sold < q ∧
        q < minTarget) ∧
    (∀ e, subscribe cfg σ who subscriptionId payment minTarget now = .error e →
      applyExtrinsic
        (fun σ' => subscribe cfg σ' who subscriptionId payment minTarget now) σ = σ) := by
  have hred : subscribe cfg σ who subscriptionId payment minTarget now =
      (if q < sub.min_amount then Except.error Err.belowMinSubscriptionAmount
       else if sub.amount - sub.state.total_sold < q then
         Except.error Err.subscriptionIsFull
       else if q < minTarget then Except.error Err.belowMinTargetAmount
       else Except.bind
         (State.transfer { σ with subscriptions := fun i =>
             if i = subscriptionId then some { sub with state :=
               { total_sold := sub.state.total_sold + q
                 last_sold_at := now
                 last_discount := d } } else σ.subscriptions i }
           sub.currency_id who cfg.daoPalletAccount payment)
         (fun σ₁ => Except.bind
           (mint_for_subscription cfg σ₁ who q sub.vesting_period now)
           (fun σ₂ => Except.ok
             (σ₂.emit (.subscribed who subscriptionId payment q))))) := by
    simp only [subscribe, Bind.bind]
    rw [hsub]
    simp only [liftO, exceptBind_ok_left]
    rw [hq, exceptBind_ok_left]
  rw [hred]
  refine ⟨?_, ?_, ?_, ?_⟩
  · by_cases hc1 : q < sub.min_amount
    · simp [hc1]
    rw [if_neg hc1]
    by_cases hc2 : sub.amount - sub.state.total_sold < q
    · rw [if_pos hc2]
      simp [hc1]
    rw [if_neg hc2]
    by_cases hc3 : q < minTarget
    · rw [if_pos hc3]
      simp [hc1]
    rw [if_neg hc3]
    constructor
    · intro h
      rcases subscribeTail_err _ _ _ _ _ _ _ _ _ _ h with h' | h' | h' | h' | h' <;>
        exact absurd h' (by decide)
    · intro h'
      exact absurd h' hc1
  · by_cases hc1 : q < sub.min_amount
    · rw [if_pos hc1]
      simp [hc1]
    rw [if_neg hc1]
    by_cases hc2 : sub.amount - sub.state.total_sold < q
    · rw [if_pos hc2]
      simp [hc1, hc2]
    rw [if_neg hc2]
    by_cases hc3 : q < minTarget
    · rw [if_pos hc3]
      simp [hc2]
    rw [if_neg hc3]
    constructor
    · intro h
      rcases subscribeTail_err _ _ _ _ _ _ _ _ _ _ h with h' | h' | h' | h' | h' <;>
        exact absurd h' (by decide)
    · intro h'
      exact absurd h'.2 hc2
  · by_cases hc1 : q < sub.min_amount
    · rw [if_pos hc1]
      simp [hc1]
    rw [if_neg hc1]
    by_cases hc2 : sub.amount - sub.state.total_sold < q
    · rw [if_pos hc2]
      simp [hc2]
    rw [if_neg hc2]
    by_cases hc3 : q < minTarget
    · rw [if_pos hc3]
      simp [hc1, hc2, hc3]
    rw [if_neg hc3]
    constructor
    · intro h
      rcases subscribeTail_err _ _ _ _ _ _ _ _ _ _ h with h' | h' | h' | h' | h' <;>
        exact absurd h' (by decide)
    · intro h'
      exact absurd h'.2.2 hc3
  · intro e h
    simp only [applyExtrinsic]
    rw [hred, h]

/-- Subscription store holding `c5wSub` at id 0, over the priced oracle
state. -/
def c4wState : State :=
  { c5wState with subscriptions := fun i => if i = 0 then some c5wSub else none }

set_option maxRecDepth 100000 in
theorem c4_subscribe_errors_witness :
    (subscribe cfg0 c4wState 5 0 (10 ^ 14) 0 1 =
        .error .belowMinSubscriptionAmount ↔
      105370000000000 < c5wSub.min_amount) :=
  (c4_subscribe_errors cfg0 c4wState 5 0 (10 ^ 14) 0 1 c5wSub 105370000000000
    (51 * 10 ^ 15) (by rfl) (by rfl)).1

end AquaDao
